import Mathlib

/-!
Verification development for the auquic repository: a shallow embedding of the
frame codec, packet codec, stream endpoints and connection-level stream
bookkeeping, together with theorems settling the specification claims.

Python `bytes` values are modelled as `List Nat` (one entry per byte);
`int.to_bytes(k, 'big')` and `int.from_bytes(_, 'big')` are modelled by
`toBytesBE` and `fromBytesBE`; Python slices `b[i:j]` become
`(b.drop i).take (j - i)` (both clamp at the end of the sequence, exactly as
Python slicing does).  Loops are modelled by structural recursion with an
explicit fuel argument when the Python loop is not structurally recursive.
-/

namespace Auquic

/-- Model of `int.from_bytes(bs, 'big')`. -/
def fromBytesBE (bs : List Nat) : Nat := bs.foldl (fun a b => a * 256 + b) 0

/-- Model of `n.to_bytes(k, 'big')` (big-endian, exactly `k` bytes; Python
raises on overflow, so callers are used only with `n < 256 ^ k`). -/
def toBytesBE : Nat → Nat → List Nat
  | 0, _ => []
  | k + 1, n => toBytesBE k (n / 256) ++ [n % 256]

/-- Model of Python's `n.bit_length()` via an explicit fuel loop. -/
def bitLenLoop : Nat → Nat → Nat
  | 0, _ => 0
  | fuel + 1, n => if n = 0 then 0 else bitLenLoop fuel (n / 2) + 1

/-- Python `n.bit_length()`: number of binary digits of `n`, `0` for `n = 0`. -/
def pyBitLength (n : Nat) : Nat := bitLenLoop n n

/-- The digit list of Python's `bin(n)[2:]` for `n > 0` (MSB first). -/
def natToBitsLoop : Nat → Nat → List Nat
  | 0, _ => []
  | fuel + 1, n => if n = 0 then [] else natToBitsLoop fuel (n / 2) ++ [n % 2]

/-- Model of `bin(n)[2:]` as a list of binary digits (`bin(0)[2:] = "0"`). -/
def pyBin (n : Nat) : List Nat := if n = 0 then [0] else natToBitsLoop n n

/-- Model of `int(s, 2)` on a list of binary digits. -/
def intFromBin (l : List Nat) : Nat := l.foldl (fun a b => a * 2 + b) 0

/-! Constants from `constants.py` (only the ones the embedded code consults). -/

namespace Constants

abbrev ZERO : Nat := 0
abbrev ONE : Nat := 1
abbrev TWO : Nat := 2
abbrev SEVEN : Nat := 7
abbrev EIGHT : Nat := 8
abbrev START : Nat := ZERO
abbrev OFFSET_LENGTH : Nat := EIGHT
abbrev LEN_LENGTH : Nat := EIGHT
abbrev FRAME_TYPE_FIELD_LENGTH : Nat := ONE
abbrev MIN_TYPE_FIELD : Nat := 0x08
abbrev OFF_BIT : Nat := 0x04
abbrev LEN_BIT : Nat := 0x02
abbrev FIN_BIT : Nat := 0x01
abbrev HEADER_LENGTH : Nat := ONE
abbrev PACKET_NUMBER_LENGTH : Nat := 4
abbrev DEST_CONNECTION_ID_LENGTH : Nat := EIGHT
abbrev FORM_SHIFT : Nat := SEVEN
abbrev FIXED_SHIFT : Nat := 6
abbrev SPIN_SHIFT : Nat := 5
abbrev RES_SHIFT : Nat := 3
abbrev KEY_SHIFT : Nat := TWO
abbrev FORM_MASK : Nat := 0b10000000
abbrev FIXED_MASK : Nat := 0b01000000
abbrev SPIN_MASK : Nat := 0b00100000
abbrev RES_MASK : Nat := 0b00011000
abbrev KEY_MASK : Nat := 0b00000100
abbrev PACKET_NUMBER_LENGTH_MASK : Nat := 0b00000011
abbrev STREAM_ID_LENGTH : Nat := EIGHT
abbrev INIT_BY_MASK : Nat := 0x01
abbrev DIRECTION_MASK : Nat := 0x02
abbrev DATA_RECVD : Nat := 3
abbrev READY : Nat := START
abbrev SEND : Nat := ONE
abbrev DATA_SENT : Nat := TWO
abbrev RECV : Nat := START
abbrev SIZE_KNOWN : Nat := ONE
abbrev DATA_READ : Nat := TWO
abbrev BASE_TWO : Nat := TWO
abbrev FRAMES_IN_PACKET : Nat := 5

end Constants

/-- A STREAM frame (`frame.py`, class `FrameStream`). -/
@[ext]
structure FrameStream where
  stream_id : Nat
  offset : Nat
  length : Nat
  fin : Bool
  data : List Nat
deriving DecidableEq, Repr

/-- The type byte computed inside `FrameStream.encode`. -/
def FrameStream.typeField (f : FrameStream) : Nat :=
  let t0 := Constants.MIN_TYPE_FIELD
  let t1 := if f.offset ≠ 0 then t0 ||| Constants.OFF_BIT else t0
  let t2 := if f.length ≠ 0 then t1 ||| Constants.LEN_BIT else t1
  if f.fin then t2 ||| Constants.FIN_BIT else t2

/-- `FrameStream.encode`: type byte, 8-byte stream id, optional 8-byte offset
(present iff non-zero), optional 8-byte length (present iff non-zero), data. -/
def FrameStream.encode (f : FrameStream) : List Nat :=
  toBytesBE Constants.FRAME_TYPE_FIELD_LENGTH f.typeField
    ++ toBytesBE Constants.STREAM_ID_LENGTH f.stream_id
    ++ (if f.offset ≠ 0 then toBytesBE Constants.OFFSET_LENGTH f.offset else [])
    ++ (if f.length ≠ 0 then toBytesBE Constants.LEN_LENGTH f.length else [])
    ++ f.data

/-- `FrameStream._decode` (also `FrameStream.decode`, which delegates to it):
reads the type byte, the stream id, then the optional fields the type byte
announces; the remaining bytes are the data.  Python slicing clamps, so the
function is total: missing bytes read as zero / empty. -/
def FrameStream.decode (frame : List Nat) : FrameStream :=
  let type_field := fromBytesBE (frame.take Constants.FRAME_TYPE_FIELD_LENGTH)
  let i0 := Constants.FRAME_TYPE_FIELD_LENGTH
  let sid := fromBytesBE ((frame.drop i0).take Constants.STREAM_ID_LENGTH)
  let i1 := i0 + Constants.STREAM_ID_LENGTH
  let offVal :=
    if type_field &&& Constants.OFF_BIT ≠ 0 then
      fromBytesBE ((frame.drop i1).take Constants.OFFSET_LENGTH)
    else 0
  let i2 := if type_field &&& Constants.OFF_BIT ≠ 0 then i1 + Constants.OFFSET_LENGTH else i1
  let lenVal :=
    if type_field &&& Constants.LEN_BIT ≠ 0 then
      fromBytesBE ((frame.drop i2).take Constants.LEN_LENGTH)
    else 0
  let i3 := if type_field &&& Constants.LEN_BIT ≠ 0 then i2 + Constants.LEN_LENGTH else i2
  ⟨sid, offVal, lenVal, decide (type_field &&& Constants.FIN_BIT ≠ 0), frame.drop i3⟩

/-- `FrameStream.end_of_attrs`: index one past the fixed and optional header
fields, computed from the type byte alone. -/
def FrameStream.end_of_attrs (frame : List Nat) : Nat :=
  let e0 := Constants.FRAME_TYPE_FIELD_LENGTH + Constants.STREAM_ID_LENGTH
  let type_field := fromBytesBE (frame.take Constants.FRAME_TYPE_FIELD_LENGTH)
  let e1 := if type_field &&& Constants.OFF_BIT ≠ 0 then e0 + Constants.OFFSET_LENGTH else e0
  if type_field &&& Constants.LEN_BIT ≠ 0 then e1 + Constants.LEN_LENGTH else e1

/-- `FrameStream.length_from_attrs`. -/
def FrameStream.length_from_attrs (frame : List Nat) (eoa : Nat) : Nat :=
  if eoa ≤ Constants.FRAME_TYPE_FIELD_LENGTH + Constants.STREAM_ID_LENGTH then 0
  else if eoa ≤ Constants.FRAME_TYPE_FIELD_LENGTH + Constants.STREAM_ID_LENGTH
      + Constants.OFFSET_LENGTH then
    fromBytesBE ((frame.drop
      (Constants.FRAME_TYPE_FIELD_LENGTH + Constants.STREAM_ID_LENGTH)).take
      Constants.LEN_LENGTH)
  else
    fromBytesBE ((frame.drop
      (Constants.FRAME_TYPE_FIELD_LENGTH + Constants.STREAM_ID_LENGTH
        + Constants.OFFSET_LENGTH)).take Constants.LEN_LENGTH)

/-- The header size the encoder actually produces for a frame `f`
(spec-side shorthand used to state parsing lemmas). -/
def FrameStream.eoaOf (f : FrameStream) : Nat :=
  Constants.FRAME_TYPE_FIELD_LENGTH + Constants.STREAM_ID_LENGTH
    + (if f.offset ≠ 0 then Constants.OFFSET_LENGTH else 0)
    + (if f.length ≠ 0 then Constants.LEN_LENGTH else 0)

/-- Well-formedness of a frame value: the advertised length is the data length
and numeric fields fit their 8-byte wire slots. -/
def FrameStream.wellFormed (f : FrameStream) : Prop :=
  f.stream_id < 2 ^ 64 ∧ f.offset < 2 ^ 64 ∧ f.length < 2 ^ 64 ∧ f.length = f.data.length

instance (f : FrameStream) : Decidable f.wellFormed := by
  unfold FrameStream.wellFormed; infer_instance

/-- A frame whose header the payload walk can step over correctly when more
frames follow: either the offset field is absent or the length field is
present. -/
def FrameStream.parseSafe (f : FrameStream) : Prop :=
  f.offset = 0 ∨ f.length ≠ 0

instance (f : FrameStream) : Decidable f.parseSafe := by
  unfold FrameStream.parseSafe; infer_instance

/-- The one-byte packet header (`packet.py`, class `PacketHeader`). -/
structure PacketHeader where
  packet_number_length : Nat
  header_form : Bool
  fixed_bit : Bool
  spin_bit : Bool
  key_phase : Bool
  reserved_bits : Nat
deriving DecidableEq, Repr

/-- `PacketHeader(packet_number_length)` with the dataclass defaults. -/
def PacketHeader.mkDefault (pnl : Nat) : PacketHeader := ⟨pnl, false, false, false, false, 0⟩

/-- `PacketHeader.pack`: shift and or the header attributes into one byte. -/
def PacketHeader.pack (h : PacketHeader) : List Nat :=
  toBytesBE Constants.HEADER_LENGTH
    ((cond h.header_form 1 0) <<< Constants.FORM_SHIFT
      ||| (cond h.fixed_bit 1 0) <<< Constants.FIXED_SHIFT
      ||| (cond h.spin_bit 1 0) <<< Constants.SPIN_SHIFT
      ||| h.reserved_bits <<< Constants.RES_SHIFT
      ||| (cond h.key_phase 1 0) <<< Constants.KEY_SHIFT
      ||| h.packet_number_length)

/-- `PacketHeader.unpack`: extract each field by masking (the reserved bits are
stored still shifted, exactly as the Python code does). -/
def PacketHeader.unpack (header : List Nat) : PacketHeader :=
  let n := fromBytesBE header
  { packet_number_length := n &&& Constants.PACKET_NUMBER_LENGTH_MASK
    header_form := decide (n &&& Constants.FORM_MASK ≠ 0)
    fixed_bit := decide (n &&& Constants.FIXED_MASK ≠ 0)
    spin_bit := decide (n &&& Constants.SPIN_MASK ≠ 0)
    key_phase := decide (n &&& Constants.KEY_MASK ≠ 0)
    reserved_bits := n &&& Constants.RES_MASK }

/-- A packet (`packet.py`, class `Packet`). -/
structure Packet where
  destination_connection_id : Nat
  packet_number : Nat
  payload : List FrameStream
deriving DecidableEq, Repr

/-- `Packet.pack`: header byte, 8-byte destination connection id, packet number
in `ceil(bit_length / 8)` bytes, then the encoded frames in order. -/
def Packet.pack (p : Packet) : List Nat :=
  let packet_number_length := (pyBitLength p.packet_number + Constants.SEVEN) / Constants.EIGHT
  PacketHeader.pack (PacketHeader.mkDefault packet_number_length)
    ++ toBytesBE Constants.DEST_CONNECTION_ID_LENGTH p.destination_connection_id
    ++ toBytesBE packet_number_length p.packet_number
    ++ (p.payload.map FrameStream.encode).flatten

/-- The payload walk of `Packet.get_frames_from_payload_bytes`, with fuel for
the `while index < len(payload_bytes)` loop (each iteration consumes at least
nine bytes, so `payload_bytes.length` steps always suffice). -/
def Packet.framesLoop : Nat → List Nat → List FrameStream
  | 0, _ => []
  | fuel + 1, bs =>
    if bs.isEmpty then []
    else
      let eoa := FrameStream.end_of_attrs (bs.take Constants.FRAME_TYPE_FIELD_LENGTH)
      let len := FrameStream.length_from_attrs (bs.take eoa) eoa
      FrameStream.decode (bs.take (eoa + len)) :: Packet.framesLoop fuel (bs.drop (eoa + len))

/-- `Packet.get_frames_from_payload_bytes`. -/
def Packet.get_frames_from_payload_bytes (payload_bytes : List Nat) : List FrameStream :=
  Packet.framesLoop payload_bytes.length payload_bytes

/-- `Packet.unpack`.  Note the source reads `Constants.PACKET_NUMBER_LENGTH`
(four) bytes of packet number but advances the cursor by the header's
`packet_number_length`. -/
def Packet.unpack (packet_bytes : List Nat) : Packet :=
  let packet_number_length :=
    (PacketHeader.unpack (packet_bytes.take Constants.HEADER_LENGTH)).packet_number_length
  let i0 := Constants.HEADER_LENGTH
  let dcid := fromBytesBE ((packet_bytes.drop i0).take Constants.DEST_CONNECTION_ID_LENGTH)
  let i1 := i0 + Constants.DEST_CONNECTION_ID_LENGTH
  let pn := fromBytesBE ((packet_bytes.drop i1).take Constants.PACKET_NUMBER_LENGTH)
  let i2 := i1 + packet_number_length
  ⟨dcid, pn, Packet.get_frames_from_payload_bytes (packet_bytes.drop i2)⟩

/-- The sender half of a stream (`stream.py`, class `StreamSender`), with the
fields inherited from `StreamEndpointABC`. -/
structure StreamSender where
  stream_id : Nat
  curr_offset : Nat
  buffer : List Nat
  state : Nat
  is_usable : Bool
  stream_frames : List FrameStream
deriving DecidableEq, Repr

/-- `StreamSender.__init__`. -/
def StreamSender.mk0 (stream_id : Nat) (is_usable : Bool) : StreamSender :=
  ⟨stream_id, 0, [], Constants.START, is_usable, []⟩

/-- A fresh sender that has had `data` appended while READY (the state
`add_data_to_buffer` leaves a new sender in). -/
def StreamSender.freshWith (stream_id : Nat) (data : List Nat) : StreamSender :=
  ⟨stream_id, 0, data, Constants.READY, true, []⟩

/-- `StreamSender.add_data_to_buffer` / `_add_data_to_buffer`: append iff the
state is READY, otherwise a `ValueError`. -/
def StreamSender.add_data_to_buffer (s : StreamSender) (data : List Nat) :
    Except String StreamSender :=
  if s.state = Constants.READY then .ok {s with buffer := s.buffer ++ data}
  else .error "ERROR: cannot write. stream is not READY."

/-- `StreamSender._get_total_stream_frames_amount`. -/
def StreamSender._get_total_stream_frames_amount (s : StreamSender) (max_size : Nat) : Nat :=
  if s.buffer.length < max_size then Constants.ONE else s.buffer.length / max_size

/-- `StreamSender.generate_fin_frame`: set the state to DATA_SENT and return a
FIN frame carrying `buffer[curr_offset:]`. -/
def StreamSender.generate_fin_frame (s : StreamSender) : FrameStream × StreamSender :=
  (⟨s.stream_id, s.curr_offset, (s.buffer.drop s.curr_offset).length, true,
      s.buffer.drop s.curr_offset⟩,
    {s with state := Constants.DATA_SENT})

/-- `StreamSender.generate_stream_frames`: when the chunk count exceeds one,
append that many `max_size`-byte non-FIN frames advancing `curr_offset`, then
always append the FIN frame produced by `generate_fin_frame`. -/
def StreamSender.generate_stream_frames (s : StreamSender) (max_size : Nat) : StreamSender :=
  let total := s._get_total_stream_frames_amount max_size
  let s1 :=
    if total > Constants.ONE then
      (List.range total).foldl (fun st _ =>
        { st with
          stream_frames := st.stream_frames
            ++ [⟨st.stream_id, st.curr_offset, max_size, false,
                  (st.buffer.drop st.curr_offset).take max_size⟩]
          curr_offset := st.curr_offset + max_size }) s
    else s
  let fs := s1.generate_fin_frame
  {fs.2 with stream_frames := fs.2.stream_frames ++ [fs.1]}

/-- `StreamSender.send_next_frame`: pop the head of the queue (Python returns
`None` on an empty queue), set the state to SEND, and to DATA_RECVD if the
popped frame carries FIN. -/
def StreamSender.send_next_frame (s : StreamSender) : Option (FrameStream × StreamSender) :=
  match s.stream_frames with
  | [] => none
  | frame :: rest =>
    let s1 := {s with stream_frames := rest, state := Constants.SEND}
    let s2 := if frame.fin then {s1 with state := Constants.DATA_RECVD} else s1
    some (frame, s2)

/-- Repeatedly call `send_next_frame` until the queue is empty, collecting the
frames handed out (fuel variant of the loop). -/
def StreamSender.drainLoop : Nat → StreamSender → List FrameStream
  | 0, _ => []
  | fuel + 1, s =>
    match s.send_next_frame with
    | none => []
    | some fs => fs.1 :: StreamSender.drainLoop fuel fs.2

/-- All frames handed out by draining `send_next_frame` to exhaustion. -/
def StreamSender.drainFrames (s : StreamSender) : List FrameStream :=
  StreamSender.drainLoop s.stream_frames.length s

/-- The queue contents after one `generate_stream_frames(max_size)` call on a
fresh sender holding `data`: the frames one full sender run produces. -/
def senderRunFrames (stream_id : Nat) (data : List Nat) (max_size : Nat) : List FrameStream :=
  ((StreamSender.freshWith stream_id data).generate_stream_frames max_size).stream_frames

/-- The number of non-FIN chunk frames `generate_stream_frames` emits on a
fresh sender (spec-side shorthand: zero unless the buffer holds at least two
full chunks). -/
def chunkCount (data : List Nat) (max_size : Nat) : Nat :=
  if 2 * max_size ≤ data.length then data.length / max_size else 0

/-- The non-FIN chunk frames of one full sender run (spec-side shorthand). -/
def chunkFrames (stream_id : Nat) (data : List Nat) (max_size : Nat) : List FrameStream :=
  (List.range (chunkCount data max_size)).map fun i =>
    ⟨stream_id, i * max_size, max_size, false, (data.drop (i * max_size)).take max_size⟩

/-- The FIN frame of one full sender run (spec-side shorthand). -/
def finFrame (stream_id : Nat) (data : List Nat) (max_size : Nat) : FrameStream :=
  ⟨stream_id, chunkCount data max_size * max_size,
    (data.drop (chunkCount data max_size * max_size)).length, true,
    data.drop (chunkCount data max_size * max_size)⟩

/-- The frame sequence handed out over the lifetime scenario of claim C7:
generate, hand out one frame, generate again (as `_create_packet` does for a
still-active stream on the next packet), then drain. -/
def lifetimeFramesC7 : List FrameStream :=
  let s1 := (StreamSender.freshWith 0 [65, 65]).generate_stream_frames 1
  match s1.send_next_frame with
  | none => []
  | some fs => fs.1 :: (fs.2.generate_stream_frames 1).drainFrames

/-- The receiver half of a stream (`stream.py`, class `StreamReceiver`); the
Python `dict` keyed by offset is modelled as an insertion-ordered association
list with last-write-wins update, exactly the observable behaviour of a
Python `dict`. -/
structure StreamReceiver where
  stream_id : Nat
  curr_offset : Nat
  buffer : List Nat
  state : Nat
  is_usable : Bool
  recv_frame_dict : List (Nat × List Nat)
deriving DecidableEq, Repr

/-- `StreamReceiver.__init__`. -/
def StreamReceiver.mk0 (stream_id : Nat) (is_usable : Bool) : StreamReceiver :=
  ⟨stream_id, 0, [], Constants.START, is_usable, []⟩

/-- `d[k] = v` on a Python dict: update in place if the key exists, else append. -/
def dictInsert (d : List (Nat × List Nat)) (k : Nat) (v : List Nat) : List (Nat × List Nat) :=
  if d.any (fun p => p.1 == k) then d.map (fun p => if p.1 = k then (k, v) else p)
  else d ++ [(k, v)]

/-- Insertion step of the model of Python's `sorted` on key-distinct items. -/
def insertByKey (p : Nat × List Nat) : List (Nat × List Nat) → List (Nat × List Nat)
  | [] => [p]
  | q :: qs => if p.1 ≤ q.1 then p :: q :: qs else q :: insertByKey p qs

/-- Model of `sorted(d.items())` by key (on the key-distinct association lists
arising here this agrees with any comparison sort, Python's included). -/
def sortByKey (l : List (Nat × List Nat)) : List (Nat × List Nat) :=
  l.foldr insertByKey []

/-- `StreamReceiver._convert_dict_to_buffer`: sort the dict by offset, append
every value to the buffer in order, and advance to DATA_RECVD.  (Its only call
site guards on state SIZE_KNOWN, so the internal `_add_data_to_buffer` state
check always passes.) -/
def StreamReceiver._convert_dict_to_buffer (s : StreamReceiver) : StreamReceiver :=
  let d := sortByKey s.recv_frame_dict
  { s with
    recv_frame_dict := d
    buffer := s.buffer ++ (d.map Prod.snd).flatten
    state := Constants.DATA_RECVD }

/-- `StreamReceiver._add_frame_to_recv_dict`. -/
def StreamReceiver._add_frame_to_recv_dict (s : StreamReceiver) (frame : FrameStream) :
    StreamReceiver :=
  let s1 :=
    { s with
      recv_frame_dict := dictInsert s.recv_frame_dict frame.offset frame.data
      curr_offset := s.curr_offset + frame.data.length }
  if s1.state = Constants.SIZE_KNOWN then s1._convert_dict_to_buffer else s1

/-- `StreamReceiver.stream_frame_recvd`: on FIN first advance to SIZE_KNOWN
(via `_fin_recvd`), then insert the frame. -/
def StreamReceiver.stream_frame_recvd (s : StreamReceiver) (frame : FrameStream) :
    StreamReceiver :=
  let s1 := if frame.fin then {s with state := Constants.SIZE_KNOWN} else s
  s1._add_frame_to_recv_dict frame

/-- `StreamReceiver.get_data_from_buffer`: return the buffer and advance to
DATA_READ iff the state is DATA_RECVD, else a `ValueError`. -/
def StreamReceiver.get_data_from_buffer (s : StreamReceiver) :
    Except String (List Nat × StreamReceiver) :=
  if s.state = Constants.DATA_RECVD then .ok (s.buffer, {s with state := Constants.DATA_READ})
  else .error "ERROR: cannot read. stream is closed."

/-- Deliver a list of frames to a receiver, in order. -/
def deliverAll (s : StreamReceiver) (fs : List FrameStream) : StreamReceiver :=
  fs.foldl StreamReceiver.stream_frame_recvd s

/-- The data value of the first `get_data_from_buffer` call. -/
def firstReadResult (s : StreamReceiver) : Except String (List Nat) :=
  s.get_data_from_buffer.map Prod.fst

/-- The receiver state after the first `get_data_from_buffer` call. -/
def afterFirstRead (s : StreamReceiver) : StreamReceiver :=
  match s.get_data_from_buffer with
  | .ok r => r.2
  | .error _ => s

/-- A stream (`stream.py`, class `Stream`): its id, direction and initiator
attributes, and its two halves with the usability `Stream.__init__` computes. -/
structure Stream where
  stream_id : Nat
  is_uni : Bool
  is_s_initiated : Bool
  sender : StreamSender
  receiver : StreamReceiver
deriving DecidableEq, Repr

/-- `Stream.__init__(stream_id, is_uni, is_s_initiated)`. -/
def Stream.init (stream_id : Nat) (is_uni : Bool) (is_s_initiated : Bool) : Stream :=
  ⟨stream_id, is_uni, is_s_initiated,
    StreamSender.mk0 stream_id ((is_uni && !is_s_initiated) || !is_uni),
    StreamReceiver.mk0 stream_id ((is_uni && is_s_initiated) || !is_uni)⟩

/-- `Stream.is_uni_by_sid`. -/
def Stream.is_uni_by_sid (stream_id : Nat) : Bool :=
  decide (stream_id &&& Constants.DIRECTION_MASK ≠ 0)

/-- `Stream.is_s_init_by_sid`. -/
def Stream.is_s_init_by_sid (stream_id : Nat) : Bool :=
  decide (stream_id &&& Constants.INIT_BY_MASK ≠ 0)

/-- The stream object `QuicConnection._add_stream(stream_id, initiated_by,
direction)` constructs: its body calls `Stream(stream_id, initiated_by,
direction)`, passing `initiated_by` into the `is_uni` slot and `direction`
into the `is_s_initiated` slot. -/
def QuicConnection._add_stream_obj (stream_id : Nat) (initiated_by : Bool) (direction : Bool) :
    Stream :=
  Stream.init stream_id initiated_by direction

/-- The stream `QuicConnection._get_stream_by_id` creates when the id is not in
the table: `_add_stream(stream_id, Stream.is_s_init_by_sid(stream_id),
Stream.is_uni_by_sid(stream_id))`. -/
def QuicConnection._get_stream_by_id_new (stream_id : Nat) : Stream :=
  QuicConnection._add_stream_obj stream_id (Stream.is_s_init_by_sid stream_id)
    (Stream.is_uni_by_sid stream_id)

/-- `QuicConnection._stream_id_generator(initiated_by, direction)`: build the
binary string `bin(counter)[2:] + str(direction) + str(initiated_by)` and read
it back in base two. -/
def QuicConnection._stream_id_generator (counter initiated_by direction : Nat) : Nat :=
  intFromBin (pyBin counter ++ [direction, initiated_by])

/-- The connection state that `get_stream` reads and writes: the stream counter
and the stream-table keys in insertion order. -/
structure ConnLite where
  streams_counter : Nat
  stream_ids : List Nat
deriving DecidableEq, Repr

/-- A freshly constructed connection: counter zero, no streams. -/
def ConnLite.fresh : ConnLite := ⟨0, []⟩

/-- `QuicConnection.get_stream(initiated_by, direction)`: generate an id from
the current counter; if it is not in the table, `_add_stream` registers it and
increments the counter.  Returns the id, whether a stream was created, and the
new connection state. -/
def ConnLite.get_stream (st : ConnLite) (initiated_by direction : Nat) :
    Nat × Bool × ConnLite :=
  let sid := QuicConnection._stream_id_generator st.streams_counter initiated_by direction
  if sid ∈ st.stream_ids then (sid, false, st)
  else (sid, true, ⟨st.streams_counter + 1, st.stream_ids ++ [sid]⟩)

/-- Run a sequence of `get_stream` calls. -/
def ConnLite.applyGetStreams (st : ConnLite) : List (Nat × Nat) → ConnLite
  | [] => st
  | c :: cs => ((st.get_stream c.1 c.2).2.2).applyGetStreams cs

/-! ### Byte-level lemmas -/

@[simp] lemma toBytesBE_length (k n : Nat) : (toBytesBE k n).length = k := by
  induction k generalizing n with
  | zero => rfl
  | succ k ih => simp [toBytesBE, ih]

lemma fromBytesBE_append_singleton (l : List Nat) (b : Nat) :
    fromBytesBE (l ++ [b]) = fromBytesBE l * 256 + b := by
  simp [fromBytesBE]

@[simp] lemma fromBytesBE_nil : fromBytesBE [] = 0 := rfl

@[simp] lemma fromBytesBE_singleton (b : Nat) : fromBytesBE [b] = b := by
  simp [fromBytesBE]

lemma fromBytesBE_toBytesBE (k n : Nat) : fromBytesBE (toBytesBE k n) = n % 256 ^ k := by
  induction k generalizing n with
  | zero => simp [toBytesBE, Nat.mod_one]
  | succ k ih =>
    rw [toBytesBE, fromBytesBE_append_singleton, ih]
    have h256 : (256 : Nat) ^ (k + 1) = 256 ^ k * 256 := by ring
    rw [h256, Nat.mul_comm (256 ^ k) 256, Nat.mod_mul]
    ring

lemma fromBytesBE_toBytesBE_of_lt {k n : Nat} (h : n < 256 ^ k) :
    fromBytesBE (toBytesBE k n) = n := by
  rw [fromBytesBE_toBytesBE, Nat.mod_eq_of_lt h]

lemma bitLenLoop_le_iff : ∀ fuel n j, n ≤ fuel → (bitLenLoop fuel n ≤ j ↔ n < 2 ^ j) := by
  intro fuel
  induction fuel with
  | zero =>
    intro n j hn
    interval_cases n
    simpa [bitLenLoop] using Nat.pos_pow_of_pos j (by norm_num)
  | succ fuel ih =>
    intro n j hn
    by_cases h0 : n = 0
    · subst h0
      simpa [bitLenLoop] using Nat.pos_pow_of_pos j (by norm_num)
    · rw [bitLenLoop, if_neg h0]
      cases j with
      | zero =>
        simp only [Nat.pow_zero]
        constructor
        · omega
        · intro h; omega
      | succ j =>
        have hrec : n / 2 ≤ fuel := by omega
        have := ih (n / 2) j hrec
        constructor
        · intro h
          have h2 : bitLenLoop fuel (n / 2) ≤ j := by omega
          have := this.mp h2
          have : n < 2 ^ j * 2 := by
            have := Nat.lt_mul_of_div_lt this (by norm_num)
            omega
          calc n < 2 ^ j * 2 := this
            _ = 2 ^ (j + 1) := by ring
        · intro h
          have hdiv : n / 2 < 2 ^ j := by
            rw [Nat.div_lt_iff_lt_mul (by norm_num : (0:Nat) < 2)]
            calc n < 2 ^ (j + 1) := h
              _ = 2 ^ j * 2 := by ring
          have := this.mpr hdiv
          omega

lemma pyBitLength_le_iff (n j : Nat) : pyBitLength n ≤ j ↔ n < 2 ^ j :=
  bitLenLoop_le_iff n n j le_rfl

lemma intFromBin_append_two (l : List Nat) (d i : Nat) :
    intFromBin (l ++ [d, i]) = intFromBin l * 4 + d * 2 + i := by
  simp [intFromBin]
  ring

lemma natToBitsLoop_correct : ∀ fuel n, n ≤ fuel → intFromBin (natToBitsLoop fuel n) = n := by
  intro fuel
  induction fuel with
  | zero => intro n hn; interval_cases n; rfl
  | succ fuel ih =>
    intro n hn
    by_cases h0 : n = 0
    · subst h0; rfl
    · rw [natToBitsLoop, if_neg h0]
      have : intFromBin (natToBitsLoop fuel (n / 2) ++ [n % 2])
          = intFromBin (natToBitsLoop fuel (n / 2)) * 2 + n % 2 := by
        simp [intFromBin]
      rw [this, ih (n / 2) (by omega)]
      omega

lemma intFromBin_pyBin (n : Nat) : intFromBin (pyBin n) = n := by
  by_cases h0 : n = 0
  · subst h0; rfl
  · rw [pyBin, if_neg h0, natToBitsLoop_correct n n le_rfl]

/-! ### Frame codec lemmas -/

lemma typeField_eq (f : FrameStream) :
    f.typeField = 8 + (if f.offset ≠ 0 then 4 else 0) + (if f.length ≠ 0 then 2 else 0)
      + (if f.fin then 1 else 0) := by
  unfold FrameStream.typeField
  split_ifs <;> decide

lemma typeField_lt (f : FrameStream) : f.typeField < 256 := by
  rw [typeField_eq]; split <;> split <;> split <;> norm_num

lemma typeField_and_off (f : FrameStream) :
    (f.typeField &&& Constants.OFF_BIT ≠ 0) ↔ f.offset ≠ 0 := by
  rw [typeField_eq]
  by_cases h1 : f.offset ≠ 0 <;> by_cases h2 : f.length ≠ 0 <;> by_cases h3 : f.fin <;>
    simp [h1, h2, h3, Constants.OFF_BIT] <;> decide

lemma typeField_and_len (f : FrameStream) :
    (f.typeField &&& Constants.LEN_BIT ≠ 0) ↔ f.length ≠ 0 := by
  rw [typeField_eq]
  by_cases h1 : f.offset ≠ 0 <;> by_cases h2 : f.length ≠ 0 <;> by_cases h3 : f.fin <;>
    simp [h1, h2, h3, Constants.LEN_BIT] <;> decide

lemma typeField_and_fin (f : FrameStream) :
    decide (f.typeField &&& Constants.FIN_BIT ≠ 0) = f.fin := by
  rw [typeField_eq]
  by_cases h1 : f.offset ≠ 0 <;> by_cases h2 : f.length ≠ 0 <;> by_cases h3 : f.fin <;>
    simp [h1, h2, h3, Constants.FIN_BIT] <;> decide

lemma encode_cons (f : FrameStream) :
    f.encode = f.typeField :: (toBytesBE 8 f.stream_id
      ++ (if f.offset ≠ 0 then toBytesBE 8 f.offset else [])
      ++ (if f.length ≠ 0 then toBytesBE 8 f.length else [])
      ++ f.data) := by
  unfold FrameStream.encode
  have : toBytesBE Constants.FRAME_TYPE_FIELD_LENGTH f.typeField = [f.typeField] := by
    show toBytesBE 1 f.typeField = [f.typeField]
    simp [toBytesBE, Nat.mod_eq_of_lt (typeField_lt f)]
  rw [this]
  simp

lemma encode_length (f : FrameStream) : f.encode.length = f.eoaOf + f.data.length := by
  rw [encode_cons]
  unfold FrameStream.eoaOf
  by_cases h1 : f.offset ≠ 0 <;> by_cases h2 : f.length ≠ 0 <;>
    simp [h1, h2, Constants.FRAME_TYPE_FIELD_LENGTH, Constants.STREAM_ID_LENGTH,
      Constants.OFFSET_LENGTH, Constants.LEN_LENGTH, Constants.ONE, Constants.EIGHT] <;> omega

lemma take_len_append (xs ys : List Nat) (n : Nat) (h : xs.length = n) :
    (xs ++ ys).take n = xs := List.take_left' h

lemma drop_len_append (xs ys : List Nat) (n : Nat) (h : xs.length = n) :
    (xs ++ ys).drop n = ys := List.drop_left' h

lemma pow256_8 : (256 : Nat) ^ 8 = 2 ^ 64 := by norm_num

lemma dropCons9 (t : Nat) (A rest : List Nat) (hA : A.length = 8) :
    (t :: (A ++ rest)).drop 9 = rest := by
  show (A ++ rest).drop 8 = rest
  exact drop_len_append A rest 8 hA

lemma dropCons17 (t : Nat) (A B rest : List Nat) (hA : A.length = 8) (hB : B.length = 8) :
    (t :: (A ++ (B ++ rest))).drop 17 = rest := by
  show (A ++ (B ++ rest)).drop (8 + 8) = rest
  rw [← List.drop_drop, drop_len_append A _ 8 hA, drop_len_append B _ 8 hB]

lemma dropCons25 (t : Nat) (A B C rest : List Nat) (hA : A.length = 8) (hB : B.length = 8)
    (hC : C.length = 8) : (t :: (A ++ (B ++ (C ++ rest)))).drop 25 = rest := by
  show (A ++ (B ++ (C ++ rest))).drop (8 + (8 + 8)) = rest
  rw [← List.drop_drop, ← List.drop_drop, drop_len_append A _ 8 hA,
    drop_len_append B _ 8 hB, drop_len_append C _ 8 hC]

/-- Round trip of the frame codec: decoding an encoded frame recovers every
field, for any data bytes and numeric fields that fit their wire slots. -/
lemma decode_encode (f : FrameStream) (h1 : f.stream_id < 2 ^ 64) (h2 : f.offset < 2 ^ 64)
    (h3 : f.length < 2 ^ 64) : FrameStream.decode f.encode = f := by
  have hsid : fromBytesBE (toBytesBE 8 f.stream_id) = f.stream_id :=
    fromBytesBE_toBytesBE_of_lt (by rw [pow256_8]; exact h1)
  have hoff : fromBytesBE (toBytesBE 8 f.offset) = f.offset :=
    fromBytesBE_toBytesBE_of_lt (by rw [pow256_8]; exact h2)
  have hlenv : fromBytesBE (toBytesBE 8 f.length) = f.length :=
    fromBytesBE_toBytesBE_of_lt (by rw [pow256_8]; exact h3)
  have hfin := typeField_and_fin f
  have hObit := typeField_and_off f
  have hLbit := typeField_and_len f
  have hAl : (toBytesBE 8 f.stream_id).length = 8 := toBytesBE_length 8 _
  have hBl : (toBytesBE 8 f.offset).length = 8 := toBytesBE_length 8 _
  have hCl : (toBytesBE 8 f.length).length = 8 := toBytesBE_length 8 _
  rw [encode_cons]
  unfold FrameStream.decode
  by_cases ho : f.offset ≠ 0 <;> by_cases hl : f.length ≠ 0
  · -- offset and length both present
    simp only [Constants.FRAME_TYPE_FIELD_LENGTH, Constants.STREAM_ID_LENGTH,
      Constants.OFFSET_LENGTH, Constants.LEN_LENGTH, Constants.ONE, Constants.EIGHT,
      Nat.reduceAdd, ne_eq, hObit, hLbit, ho, hl, not_false_eq_true, ite_true, ite_false,
      List.append_assoc, List.take_succ_cons, List.take_zero, List.drop_succ_cons,
      List.drop_zero, fromBytesBE_singleton, hfin, hsid,
      take_len_append _ _ 8 hAl, drop_len_append _ _ 8 hAl,
      dropCons9 _ _ _ hAl, dropCons17 _ _ _ _ hAl hBl, dropCons25 _ _ _ _ _ hAl hBl hCl,
      take_len_append _ _ 8 hBl, take_len_append _ _ 8 hCl, hoff, hlenv]
  · -- offset present, length absent
    simp only [Constants.FRAME_TYPE_FIELD_LENGTH, Constants.STREAM_ID_LENGTH,
      Constants.OFFSET_LENGTH, Constants.LEN_LENGTH, Constants.ONE, Constants.EIGHT,
      Nat.reduceAdd, ne_eq, hObit, hLbit, ho, hl, not_false_eq_true, ite_true, ite_false,
      List.append_assoc, List.take_succ_cons, List.take_zero, List.drop_succ_cons,
      List.drop_zero, fromBytesBE_singleton, hfin, hsid, List.nil_append,
      take_len_append _ _ 8 hAl, drop_len_append _ _ 8 hAl,
      dropCons9 _ _ _ hAl, dropCons17 _ _ _ _ hAl hBl,
      take_len_append _ _ 8 hBl, hoff]
    cases f with
    | mk sid off len fin data => simp_all
  · -- offset absent, length present
    simp only [Constants.FRAME_TYPE_FIELD_LENGTH, Constants.STREAM_ID_LENGTH,
      Constants.OFFSET_LENGTH, Constants.LEN_LENGTH, Constants.ONE, Constants.EIGHT,
      Nat.reduceAdd, ne_eq, hObit, hLbit, ho, hl, not_false_eq_true, ite_true, ite_false,
      List.append_assoc, List.take_succ_cons, List.take_zero, List.drop_succ_cons,
      List.drop_zero, fromBytesBE_singleton, hfin, hsid, List.nil_append,
      take_len_append _ _ 8 hAl, drop_len_append _ _ 8 hAl,
      dropCons9 _ _ _ hAl, dropCons17 _ _ _ _ hAl hCl,
      take_len_append _ _ 8 hCl, hlenv]
    cases f with
    | mk sid off len fin data => simp_all
  · -- neither optional field present
    simp only [Constants.FRAME_TYPE_FIELD_LENGTH, Constants.STREAM_ID_LENGTH,
      Constants.OFFSET_LENGTH, Constants.LEN_LENGTH, Constants.ONE, Constants.EIGHT,
      Nat.reduceAdd, ne_eq, hObit, hLbit, ho, hl, not_false_eq_true, ite_true, ite_false,
      List.append_assoc, List.take_succ_cons, List.take_zero, List.drop_succ_cons,
      List.drop_zero, fromBytesBE_singleton, hfin, hsid, List.nil_append,
      take_len_append _ _ 8 hAl, drop_len_append _ _ 8 hAl, dropCons9 _ _ _ hAl]
    cases f with
    | mk sid off len fin data => simp_all

lemma eoaOf_ge (f : FrameStream) : 9 ≤ f.eoaOf := by
  unfold FrameStream.eoaOf
  simp only [Constants.FRAME_TYPE_FIELD_LENGTH, Constants.STREAM_ID_LENGTH,
    Constants.OFFSET_LENGTH, Constants.LEN_LENGTH, Constants.ONE, Constants.EIGHT]
  split <;> split <;> omega

lemma take_len_add_append (xs ys : List Nat) (n k : Nat) (h : xs.length = n) :
    (xs ++ ys).take (n + k) = xs ++ ys.take k := by
  subst h; exact List.take_append k

lemma end_of_attrs_ge (bs : List Nat) : 9 ≤ FrameStream.end_of_attrs bs := by
  unfold FrameStream.end_of_attrs
  simp only [Constants.FRAME_TYPE_FIELD_LENGTH, Constants.STREAM_ID_LENGTH,
    Constants.OFFSET_LENGTH, Constants.LEN_LENGTH, Constants.ONE, Constants.EIGHT]
  split <;> split <;> omega

lemma take_tf_encode_append (f : FrameStream) (rest : List Nat) :
    (f.encode ++ rest).take Constants.FRAME_TYPE_FIELD_LENGTH = [f.typeField] := by
  rw [encode_cons]; rfl

lemma end_of_attrs_typeByte (f : FrameStream) :
    FrameStream.end_of_attrs [f.typeField] = f.eoaOf := by
  unfold FrameStream.end_of_attrs FrameStream.eoaOf
  have hO := typeField_and_off f
  have hL := typeField_and_len f
  by_cases ho : f.offset ≠ 0 <;> by_cases hl : f.length ≠ 0 <;>
    simp [hO, hL, ho, hl, fromBytesBE_singleton]

/-- The full 17-byte prefix of an encoded frame whose header is exactly 17
bytes, inside any continuation. -/
lemma take17_encode (t : Nat) (A B rest : List Nat) (hA : A.length = 8) (hB : B.length = 8) :
    (t :: (A ++ (B ++ rest))).take 17 = t :: (A ++ B) := by
  have h1 : (A ++ (B ++ rest)).take 16 = A ++ B := by
    have := take_len_add_append A (B ++ rest) 8 8 hA
    rw [show (16 : Nat) = 8 + 8 from rfl, this, take_len_append B rest 8 hB]
  show t :: (A ++ (B ++ rest)).take 16 = t :: (A ++ B)
  rw [h1]

lemma take25_encode (t : Nat) (A B C rest : List Nat) (hA : A.length = 8) (hB : B.length = 8)
    (hC : C.length = 8) : (t :: (A ++ (B ++ (C ++ rest)))).take 25 = t :: (A ++ (B ++ C)) := by
  have h1 : (A ++ (B ++ (C ++ rest))).take 24 = A ++ (B ++ C) := by
    have h2 := take_len_add_append A (B ++ (C ++ rest)) 8 16 hA
    have h3 := take_len_add_append B (C ++ rest) 8 8 hB
    rw [show (24 : Nat) = 8 + 16 from rfl, h2, show (16 : Nat) = 8 + 8 from rfl, h3,
      take_len_append C rest 8 hC]
  show t :: (A ++ (B ++ (C ++ rest))).take 24 = t :: (A ++ (B ++ C))
  rw [h1]

/-- `length_from_attrs` applied the way the payload walk applies it, on a
parse-safe frame: it returns the frame's length field. -/
lemma length_from_attrs_encode_safe (f : FrameStream) (hsafe : f.parseSafe)
    (hlen : f.length < 2 ^ 64) (rest : List Nat) :
    FrameStream.length_from_attrs ((f.encode ++ rest).take f.eoaOf) f.eoaOf = f.length := by
  have hAl : (toBytesBE 8 f.stream_id).length = 8 := toBytesBE_length 8 _
  have hBl : (toBytesBE 8 f.offset).length = 8 := toBytesBE_length 8 _
  have hCl : (toBytesBE 8 f.length).length = 8 := toBytesBE_length 8 _
  have hlenv : fromBytesBE (toBytesBE 8 f.length) = f.length :=
    fromBytesBE_toBytesBE_of_lt (by rw [pow256_8]; exact hlen)
  rcases hsafe with ho | hl
  · by_cases hl : f.length ≠ 0
    · -- offset absent, length present: eoa = 17, length read at 9..17
      have heoa : f.eoaOf = 17 := by
        unfold FrameStream.eoaOf; simp [ho, hl]; decide
      have hshape : f.encode ++ rest
          = f.typeField :: (toBytesBE 8 f.stream_id ++ (toBytesBE 8 f.length ++ (f.data ++ rest))) := by
        rw [encode_cons]; simp [ho, hl]
      rw [heoa, hshape, take17_encode _ _ _ _ hAl hCl]
      unfold FrameStream.length_from_attrs
      have h9 : (f.typeField :: (toBytesBE 8 f.stream_id ++ toBytesBE 8 f.length)).drop 9
          = toBytesBE 8 f.length := by
        show (toBytesBE 8 f.stream_id ++ toBytesBE 8 f.length).drop 8 = toBytesBE 8 f.length
        exact drop_len_append _ _ 8 hAl
      simp only [Constants.FRAME_TYPE_FIELD_LENGTH, Constants.STREAM_ID_LENGTH,
        Constants.OFFSET_LENGTH, Constants.LEN_LENGTH, Constants.ONE, Constants.EIGHT,
        Nat.reduceAdd]
      rw [if_neg (by omega), if_pos (by omega), h9, List.take_of_length_le (by omega), hlenv]
    · -- neither field present: eoa = 9, length 0
      have heoa : f.eoaOf = 9 := by
        unfold FrameStream.eoaOf; simp [ho, hl]; decide
      rw [heoa]
      unfold FrameStream.length_from_attrs
      simp only [Constants.FRAME_TYPE_FIELD_LENGTH, Constants.STREAM_ID_LENGTH,
        Constants.OFFSET_LENGTH, Constants.LEN_LENGTH, Constants.ONE, Constants.EIGHT,
        Nat.reduceAdd]
      rw [if_pos (by omega)]
      omega
  · by_cases ho : f.offset ≠ 0
    · -- both fields present: eoa = 25, length read at 17..25
      have heoa : f.eoaOf = 25 := by
        unfold FrameStream.eoaOf; simp [ho, hl]; decide
      have hshape : f.encode ++ rest
          = f.typeField :: (toBytesBE 8 f.stream_id ++ (toBytesBE 8 f.offset
              ++ (toBytesBE 8 f.length ++ (f.data ++ rest)))) := by
        rw [encode_cons]; simp [ho, hl]
      rw [heoa, hshape, take25_encode _ _ _ _ _ hAl hBl hCl]
      unfold FrameStream.length_from_attrs
      have h17 : (f.typeField :: (toBytesBE 8 f.stream_id ++ (toBytesBE 8 f.offset
          ++ toBytesBE 8 f.length))).drop 17 = toBytesBE 8 f.length := by
        show (toBytesBE 8 f.stream_id ++ (toBytesBE 8 f.offset
          ++ toBytesBE 8 f.length)).drop (8 + 8) = toBytesBE 8 f.length
        rw [← List.drop_drop, drop_len_append _ _ 8 hAl, drop_len_append _ _ 8 hBl]
      simp only [Constants.FRAME_TYPE_FIELD_LENGTH, Constants.STREAM_ID_LENGTH,
        Constants.OFFSET_LENGTH, Constants.LEN_LENGTH, Constants.ONE, Constants.EIGHT,
        Nat.reduceAdd]
      rw [if_neg (by omega), if_neg (by omega), h17, List.take_of_length_le (by omega), hlenv]
    · -- offset absent, length present (as in the first branch)
      have heoa : f.eoaOf = 17 := by
        unfold FrameStream.eoaOf; simp [ho, hl]; decide
      have hshape : f.encode ++ rest
          = f.typeField :: (toBytesBE 8 f.stream_id ++ (toBytesBE 8 f.length ++ (f.data ++ rest))) := by
        rw [encode_cons]; simp [ho, hl]
      rw [heoa, hshape, take17_encode _ _ _ _ hAl hCl]
      unfold FrameStream.length_from_attrs
      have h9 : (f.typeField :: (toBytesBE 8 f.stream_id ++ toBytesBE 8 f.length)).drop 9
          = toBytesBE 8 f.length := by
        show (toBytesBE 8 f.stream_id ++ toBytesBE 8 f.length).drop 8 = toBytesBE 8 f.length
        exact drop_len_append _ _ 8 hAl
      simp only [Constants.FRAME_TYPE_FIELD_LENGTH, Constants.STREAM_ID_LENGTH,
        Constants.OFFSET_LENGTH, Constants.LEN_LENGTH, Constants.ONE, Constants.EIGHT,
        Nat.reduceAdd]
      rw [if_neg (by omega), if_pos (by omega), h9, List.take_of_length_le (by omega), hlenv]

/-- On a frame with the offset field present and the length field absent,
`length_from_attrs` misreads the offset field as length. -/
lemma length_from_attrs_encode_offnolen (f : FrameStream) (ho : f.offset ≠ 0)
    (hl : f.length = 0) (hoff : f.offset < 2 ^ 64) (rest : List Nat) :
    FrameStream.length_from_attrs ((f.encode ++ rest).take f.eoaOf) f.eoaOf = f.offset := by
  have hAl : (toBytesBE 8 f.stream_id).length = 8 := toBytesBE_length 8 _
  have hBl : (toBytesBE 8 f.offset).length = 8 := toBytesBE_length 8 _
  have hoffv : fromBytesBE (toBytesBE 8 f.offset) = f.offset :=
    fromBytesBE_toBytesBE_of_lt (by rw [pow256_8]; exact hoff)
  have heoa : f.eoaOf = 17 := by
    unfold FrameStream.eoaOf; simp [ho, hl]; decide
  have hshape : f.encode ++ rest
      = f.typeField :: (toBytesBE 8 f.stream_id ++ (toBytesBE 8 f.offset ++ (f.data ++ rest))) := by
    rw [encode_cons]; simp [ho, hl]
  rw [heoa, hshape, take17_encode _ _ _ _ hAl hBl]
  unfold FrameStream.length_from_attrs
  have h9 : (f.typeField :: (toBytesBE 8 f.stream_id ++ toBytesBE 8 f.offset)).drop 9
      = toBytesBE 8 f.offset := by
    show (toBytesBE 8 f.stream_id ++ toBytesBE 8 f.offset).drop 8 = toBytesBE 8 f.offset
    exact drop_len_append _ _ 8 hAl
  simp only [Constants.FRAME_TYPE_FIELD_LENGTH, Constants.STREAM_ID_LENGTH,
    Constants.OFFSET_LENGTH, Constants.LEN_LENGTH, Constants.ONE, Constants.EIGHT,
    Nat.reduceAdd]
  rw [if_neg (by omega), if_pos (by omega), h9, List.take_of_length_le (by omega), hoffv]

lemma take_full_encode (f : FrameStream) (rest : List Nat) :
    (f.encode ++ rest).take (f.eoaOf + f.data.length) = f.encode :=
  take_len_append _ _ _ (encode_length f)

lemma drop_full_encode (f : FrameStream) (rest : List Nat) :
    (f.encode ++ rest).drop (f.eoaOf + f.data.length) = rest :=
  drop_len_append _ _ _ (encode_length f)

lemma encode_ne_nil (f : FrameStream) : f.encode ≠ [] := by
  rw [encode_cons]; simp

lemma framesLoop_nil : ∀ fuel, Packet.framesLoop fuel [] = []
  | 0 => rfl
  | _ + 1 => rfl

lemma framesLoop_congr : ∀ f1 f2 (bs : List Nat), bs.length ≤ f1 → bs.length ≤ f2 →
    Packet.framesLoop f1 bs = Packet.framesLoop f2 bs := by
  intro f1
  induction f1 with
  | zero =>
    intro f2 bs h1 _
    have : bs = [] := List.eq_nil_of_length_eq_zero (by omega)
    subst this
    rw [framesLoop_nil, framesLoop_nil]
  | succ f1 ih =>
    intro f2 bs h1 h2
    by_cases hbs : bs = []
    · subst hbs; rw [framesLoop_nil, framesLoop_nil]
    · have hlen : 0 < bs.length := List.length_pos.mpr hbs
      cases f2 with
      | zero => omega
      | succ f2 =>
        rw [Packet.framesLoop, Packet.framesLoop]
        have hne : bs.isEmpty = false := by
          cases bs with
          | nil => exact absurd rfl hbs
          | cons x xs => rfl
        simp only [hne, Bool.false_eq_true, if_false]
        have h9 := end_of_attrs_ge (bs.take Constants.FRAME_TYPE_FIELD_LENGTH)
        congr 1
        apply ih
        · simp only [List.length_drop]; omega
        · simp only [List.length_drop]; omega

lemma get_frames_cons (bs : List Nat) (h : bs ≠ []) :
    Packet.get_frames_from_payload_bytes bs =
      FrameStream.decode (bs.take (FrameStream.end_of_attrs (bs.take Constants.FRAME_TYPE_FIELD_LENGTH)
          + FrameStream.length_from_attrs
              (bs.take (FrameStream.end_of_attrs (bs.take Constants.FRAME_TYPE_FIELD_LENGTH)))
              (FrameStream.end_of_attrs (bs.take Constants.FRAME_TYPE_FIELD_LENGTH))))
        :: Packet.get_frames_from_payload_bytes
            (bs.drop (FrameStream.end_of_attrs (bs.take Constants.FRAME_TYPE_FIELD_LENGTH)
              + FrameStream.length_from_attrs
                  (bs.take (FrameStream.end_of_attrs (bs.take Constants.FRAME_TYPE_FIELD_LENGTH)))
                  (FrameStream.end_of_attrs (bs.take Constants.FRAME_TYPE_FIELD_LENGTH)))) := by
  obtain ⟨b, t, rfl⟩ : ∃ b t, bs = b :: t := by
    cases bs
    · exact absurd rfl h
    · exact ⟨_, _, rfl⟩
  show Packet.framesLoop ((b :: t).length) (b :: t) = _
  rw [show (b :: t).length = t.length + 1 by rfl, Packet.framesLoop]
  simp only [List.isEmpty_cons, Bool.false_eq_true, if_false]
  congr 1
  have h9 := end_of_attrs_ge ((b :: t).take Constants.FRAME_TYPE_FIELD_LENGTH)
  apply framesLoop_congr
  · simp only [List.length_drop, List.length_cons]; omega
  · exact le_rfl

/-- One step of the payload walk over a well-formed, parse-safe frame: exactly
that frame is consumed and recovered. -/
lemma get_frames_step (f : FrameStream) (R : List Nat) (hwf : f.wellFormed)
    (hsafe : f.parseSafe) :
    Packet.get_frames_from_payload_bytes (f.encode ++ R)
      = f :: Packet.get_frames_from_payload_bytes R := by
  obtain ⟨hw1, hw2, hw3, hw4⟩ := hwf
  have hne : f.encode ++ R ≠ [] := by
    intro hc
    exact encode_ne_nil f (List.append_eq_nil.mp hc).1
  rw [get_frames_cons _ hne, take_tf_encode_append, end_of_attrs_typeByte,
    length_from_attrs_encode_safe f hsafe hw3, hw4, take_full_encode, drop_full_encode,
    decode_encode f hw1 hw2 hw3]

/-- The payload walk recovers a trailing frame even when its header has the
offset field but no length field: the stray length just runs past the end. -/
lemma get_frames_last_unsafe (f : FrameStream) (hwf : f.wellFormed) (ho : f.offset ≠ 0)
    (hl : f.length = 0) : Packet.get_frames_from_payload_bytes f.encode = [f] := by
  obtain ⟨hw1, hw2, hw3, hw4⟩ := hwf
  have hdata : f.data = [] := List.eq_nil_of_length_eq_zero (by omega)
  have heoa : f.eoaOf = 17 := by
    unfold FrameStream.eoaOf; simp [ho, hl]; decide
  have hlen17 : f.encode.length = 17 := by
    rw [encode_length, heoa, hdata]; rfl
  have happ : f.encode = f.encode ++ [] := by simp
  rw [get_frames_cons _ (encode_ne_nil f)]
  rw [happ, take_tf_encode_append, end_of_attrs_typeByte,
    length_from_attrs_encode_offnolen f ho hl hw2]
  rw [← happ, heoa]
  have h1 : f.encode.take (17 + f.offset) = f.encode := List.take_of_length_le (by omega)
  have h2 : f.encode.drop (17 + f.offset) = [] := List.drop_eq_nil_of_le (by omega)
  rw [h1, h2]
  have hdec : FrameStream.decode f.encode = f := decode_encode f hw1 hw2 hw3
  rw [hdec]
  rfl

/-- The packet parser walk over any concatenation of well-formed encoded
frames, all of whose non-final members are parse-safe, recovers exactly the
original frame list. -/
lemma get_frames_flatten : ∀ fs : List FrameStream, (∀ f ∈ fs, f.wellFormed) →
    (∀ f ∈ fs.dropLast, f.parseSafe) →
    Packet.get_frames_from_payload_bytes ((fs.map FrameStream.encode).flatten) = fs := by
  intro fs
  induction fs with
  | nil => intro _ _; rfl
  | cons f rest ih =>
    intro hwf hmid
    have hwf1 : f.wellFormed := hwf f (List.mem_cons_self _ _)
    have hbs : ((f :: rest).map FrameStream.encode).flatten
        = f.encode ++ (rest.map FrameStream.encode).flatten := by simp
    by_cases hrest : rest = []
    · subst hrest
      by_cases hsafe : f.parseSafe
      · rw [hbs]
        simp only [List.map_nil, List.flatten_nil, List.append_nil] at hbs ⊢
        rw [show f.encode = f.encode ++ [] by simp, get_frames_step f [] hwf1 hsafe]
        rfl
      · have ho : f.offset ≠ 0 := by
          intro hc
          exact hsafe (Or.inl hc)
        have hl : f.length = 0 := by
          by_contra hc
          exact hsafe (Or.inr hc)
        rw [hbs]
        simp only [List.map_nil, List.flatten_nil, List.append_nil]
        exact get_frames_last_unsafe f hwf1 ho hl
    · have hsafe : f.parseSafe := by
        apply hmid
        rw [List.dropLast_cons_of_ne_nil hrest]
        exact List.mem_cons_self _ _
      rw [hbs, get_frames_step f _ hwf1 hsafe]
      congr 1
      apply ih
      · intro g hg; exact hwf g (List.mem_cons_of_mem _ hg)
      · intro g hg
        apply hmid
        rw [List.dropLast_cons_of_ne_nil hrest]
        exact List.mem_cons_of_mem _ hg

/-! ### Packet codec lemmas -/

lemma packetHeader_pack_default (pnl : Nat) (h : pnl < 256) :
    (PacketHeader.mkDefault pnl).pack = [pnl] := by
  unfold PacketHeader.pack PacketHeader.mkDefault
  simp only [cond_false, Nat.zero_shiftLeft, Nat.zero_or, Nat.or_zero]
  show toBytesBE 1 pnl = [pnl]
  simp [toBytesBE, Nat.mod_eq_of_lt h]

lemma packetHeader_unpack_pnl (b : Nat) :
    (PacketHeader.unpack [b]).packet_number_length = b &&& 3 := by
  unfold PacketHeader.unpack
  simp [fromBytesBE_singleton]

lemma and_three_of_le (pnl : Nat) (h : pnl ≤ 3) : pnl &&& 3 = pnl := by
  interval_cases pnl <;> decide

/-- What `Packet.unpack` recovers from `Packet.pack`: the destination
connection id and (for well-formed, mid-parse-safe frames) the payload are
always recovered; the packet number is recovered when the payload is empty. -/
lemma unpack_pack (p : Packet) (hd : p.destination_connection_id < 2 ^ 64)
    (hpn : p.packet_number < 2 ^ 24)
    (hwf : ∀ f ∈ p.payload, f.wellFormed)
    (hmid : ∀ f ∈ p.payload.dropLast, f.parseSafe) :
    (Packet.unpack (Packet.pack p)).destination_connection_id = p.destination_connection_id
    ∧ (Packet.unpack (Packet.pack p)).payload = p.payload
    ∧ (p.payload = [] → (Packet.unpack (Packet.pack p)).packet_number = p.packet_number) := by
  have hbl : pyBitLength p.packet_number ≤ 24 := (pyBitLength_le_iff _ 24).mpr hpn
  have hpnl3 : (pyBitLength p.packet_number + Constants.SEVEN) / Constants.EIGHT ≤ 3 := by
    show (pyBitLength p.packet_number + 7) / 8 ≤ 3
    omega
  set pnl := (pyBitLength p.packet_number + Constants.SEVEN) / Constants.EIGHT with hpnl
  have hpn256 : p.packet_number < 256 ^ pnl := by
    have h8 : pyBitLength p.packet_number ≤ 8 * pnl := by
      rw [hpnl]; show pyBitLength p.packet_number ≤ 8 * ((pyBitLength p.packet_number + 7) / 8)
      omega
    have := (pyBitLength_le_iff p.packet_number (8 * pnl)).mp h8
    calc p.packet_number < 2 ^ (8 * pnl) := this
      _ = 256 ^ pnl := by rw [pow_mul]; norm_num
  have hDl : (toBytesBE 8 p.destination_connection_id).length = 8 := toBytesBE_length 8 _
  have hPBl : (toBytesBE pnl p.packet_number).length = pnl := toBytesBE_length pnl _
  have hpack : Packet.pack p
      = pnl :: (toBytesBE 8 p.destination_connection_id
          ++ (toBytesBE pnl p.packet_number ++ (p.payload.map FrameStream.encode).flatten)) := by
    unfold Packet.pack
    rw [← hpnl]
    show (PacketHeader.mkDefault pnl).pack
        ++ toBytesBE Constants.DEST_CONNECTION_ID_LENGTH p.destination_connection_id
        ++ toBytesBE pnl p.packet_number
        ++ (List.map FrameStream.encode p.payload).flatten = _
    rw [packetHeader_pack_default pnl (by omega)]
    simp [List.append_assoc]
  have hunfold : Packet.unpack (Packet.pack p)
      = ⟨fromBytesBE (((Packet.pack p).drop Constants.HEADER_LENGTH).take
            Constants.DEST_CONNECTION_ID_LENGTH),
         fromBytesBE (((Packet.pack p).drop (Constants.HEADER_LENGTH
            + Constants.DEST_CONNECTION_ID_LENGTH)).take Constants.PACKET_NUMBER_LENGTH),
         Packet.get_frames_from_payload_bytes ((Packet.pack p).drop (Constants.HEADER_LENGTH
            + Constants.DEST_CONNECTION_ID_LENGTH
            + (PacketHeader.unpack ((Packet.pack p).take
                Constants.HEADER_LENGTH)).packet_number_length))⟩ := rfl
  have htake1 : (Packet.pack p).take Constants.HEADER_LENGTH = [pnl] := by
    rw [hpack]; rfl
  have hpnlfield : (PacketHeader.unpack ((Packet.pack p).take
      Constants.HEADER_LENGTH)).packet_number_length = pnl := by
    rw [htake1, packetHeader_unpack_pnl, and_three_of_le pnl hpnl3]
  have hdrop1 : (Packet.pack p).drop Constants.HEADER_LENGTH
      = toBytesBE 8 p.destination_connection_id
          ++ (toBytesBE pnl p.packet_number ++ (p.payload.map FrameStream.encode).flatten) := by
    rw [hpack]; rfl
  have hdest : fromBytesBE (((Packet.pack p).drop Constants.HEADER_LENGTH).take
      Constants.DEST_CONNECTION_ID_LENGTH) = p.destination_connection_id := by
    rw [hdrop1, take_len_append _ _ 8 hDl]
    exact fromBytesBE_toBytesBE_of_lt (by rw [pow256_8]; exact hd)
  have hdrop9 : (Packet.pack p).drop (Constants.HEADER_LENGTH
      + Constants.DEST_CONNECTION_ID_LENGTH)
      = toBytesBE pnl p.packet_number ++ (p.payload.map FrameStream.encode).flatten := by
    rw [hpack]
    show (toBytesBE 8 p.destination_connection_id
        ++ (toBytesBE pnl p.packet_number ++ (p.payload.map FrameStream.encode).flatten)).drop 8
      = _
    exact drop_len_append _ _ 8 hDl
  have hdroppayload : (Packet.pack p).drop (Constants.HEADER_LENGTH
      + Constants.DEST_CONNECTION_ID_LENGTH
      + (PacketHeader.unpack ((Packet.pack p).take
          Constants.HEADER_LENGTH)).packet_number_length)
      = (p.payload.map FrameStream.encode).flatten := by
    rw [hpnlfield]
    have h9p : Constants.HEADER_LENGTH + Constants.DEST_CONNECTION_ID_LENGTH + pnl
        = (Constants.HEADER_LENGTH + Constants.DEST_CONNECTION_ID_LENGTH) + pnl := rfl
    rw [h9p, ← List.drop_drop, hdrop9, drop_len_append _ _ pnl hPBl]
  refine ⟨?_, ?_, ?_⟩
  · rw [hunfold]
    exact hdest
  · rw [hunfold]
    show Packet.get_frames_from_payload_bytes _ = p.payload
    rw [hdroppayload]
    exact get_frames_flatten p.payload hwf hmid
  · intro hempty
    rw [hunfold]
    show fromBytesBE (((Packet.pack p).drop (Constants.HEADER_LENGTH
        + Constants.DEST_CONNECTION_ID_LENGTH)).take Constants.PACKET_NUMBER_LENGTH)
      = p.packet_number
    rw [hdrop9, hempty]
    simp only [List.map_nil, List.flatten_nil, List.append_nil]
    rw [List.take_of_length_le (by rw [hPBl]; show pnl ≤ 4; omega)]
    exact fromBytesBE_toBytesBE_of_lt hpn256

/-! ### Sender lemmas -/

lemma gen_loop_spec (m : Nat) : ∀ (t : Nat) (st : StreamSender),
    (List.range t).foldl (fun st _ =>
      { st with
        stream_frames := st.stream_frames
          ++ [⟨st.stream_id, st.curr_offset, m, false,
                (st.buffer.drop st.curr_offset).take m⟩]
        curr_offset := st.curr_offset + m }) st
    = { st with
        stream_frames := st.stream_frames ++ (List.range t).map (fun i =>
          ⟨st.stream_id, st.curr_offset + i * m, m, false,
            (st.buffer.drop (st.curr_offset + i * m)).take m⟩)
        curr_offset := st.curr_offset + t * m } := by
  intro t
  induction t with
  | zero => intro st; simp
  | succ t ih =>
    intro st
    rw [List.range_succ, List.foldl_append, ih st]
    simp only [List.foldl_cons, List.foldl_nil, List.range_succ, List.map_append,
      List.map_cons, List.map_nil, List.append_assoc, List.nil_append]
    rw [show st.curr_offset + t * m + m = st.curr_offset + (t + 1) * m by ring]

lemma send_next_frame_eq (s : StreamSender) (f : FrameStream) (rest : List FrameStream)
    (hq : s.stream_frames = f :: rest) :
    s.send_next_frame = some (f,
      if f.fin = true then { s with stream_frames := rest, state := Constants.DATA_RECVD }
      else { s with stream_frames := rest, state := Constants.SEND }) := by
  unfold StreamSender.send_next_frame
  rw [hq]

lemma drainLoop_eq : ∀ (q : List FrameStream) (fuel : Nat) (s : StreamSender),
    s.stream_frames = q → q.length ≤ fuel → StreamSender.drainLoop fuel s = q := by
  intro q
  induction q with
  | nil =>
    intro fuel s hq _
    cases fuel with
    | zero => rfl
    | succ fuel =>
      rw [StreamSender.drainLoop]
      have hnone : s.send_next_frame = none := by
        unfold StreamSender.send_next_frame; rw [hq]
      rw [hnone]
  | cons f rest ih =>
    intro fuel s hq hf
    cases fuel with
    | zero => simp at hf
    | succ fuel =>
      rw [StreamSender.drainLoop, send_next_frame_eq s f rest hq]
      dsimp only
      congr 1
      apply ih
      · split <;> rfl
      · simp at hf; omega

lemma drainFrames_eq (s : StreamSender) : s.drainFrames = s.stream_frames :=
  drainLoop_eq s.stream_frames s.stream_frames.length s rfl le_rfl

/-- Characterization of `generate_stream_frames` on a fresh sender: the queue
holds the chunk frames followed by the FIN frame. -/
lemma senderRunFrames_eq (sid : Nat) (B : List Nat) (m : Nat) (hm : 0 < m) :
    senderRunFrames sid B m = chunkFrames sid B m ++ [finFrame sid B m] := by
  unfold senderRunFrames StreamSender.generate_stream_frames
  dsimp only
  have htotdef : (StreamSender.freshWith sid B)._get_total_stream_frames_amount m
      = if B.length < m then 1 else B.length / m := rfl
  by_cases hc : 2 * m ≤ B.length
  · have hnl : ¬(B.length < m) := by omega
    have htot : (StreamSender.freshWith sid B)._get_total_stream_frames_amount m
        = B.length / m := by rw [htotdef, if_neg hnl]
    have htot2 : 1 < B.length / m := by
      have := (Nat.le_div_iff_mul_le hm).mpr (by omega : 2 * m ≤ B.length)
      omega
    rw [htot, if_pos (show B.length / m > Constants.ONE from htot2),
      gen_loop_spec m (B.length / m) (StreamSender.freshWith sid B)]
    unfold StreamSender.generate_fin_frame chunkFrames finFrame chunkCount
    rw [if_pos hc]
    simp [StreamSender.freshWith]
  · have htot : (StreamSender.freshWith sid B)._get_total_stream_frames_amount m ≤ 1 := by
      rw [htotdef]
      split
      · exact le_rfl
      · by_contra hgt
        have := (Nat.le_div_iff_mul_le hm).mp (by omega : 2 ≤ B.length / m)
        omega
    have hone : (Constants.ONE : Nat) = 1 := rfl
    rw [if_neg (by omega)]
    unfold StreamSender.generate_fin_frame chunkFrames finFrame chunkCount
    rw [if_neg hc]
    simp [StreamSender.freshWith]

/-! ### Receiver lemmas -/

lemma deliver_nonfin : ∀ (l : List FrameStream) (s : StreamReceiver),
    s.state = Constants.RECV → (∀ f ∈ l, f.fin = false) →
    (deliverAll s l).state = Constants.RECV
    ∧ (deliverAll s l).buffer = s.buffer
    ∧ (deliverAll s l).recv_frame_dict
        = l.foldl (fun d f => dictInsert d f.offset f.data) s.recv_frame_dict
    ∧ (deliverAll s l).stream_id = s.stream_id
    ∧ (deliverAll s l).is_usable = s.is_usable := by
  intro l
  induction l with
  | nil => intro s hs _; exact ⟨hs, rfl, rfl, rfl, rfl⟩
  | cons f t ih =>
    intro s hs hl
    have hf : f.fin = false := hl f (List.mem_cons_self _ _)
    have hstep : s.stream_frame_recvd f
        = { s with
            recv_frame_dict := dictInsert s.recv_frame_dict f.offset f.data
            curr_offset := s.curr_offset + f.data.length } := by
      unfold StreamReceiver.stream_frame_recvd StreamReceiver._add_frame_to_recv_dict
      rw [hf]
      simp only [Bool.false_eq_true, if_false]
      rw [if_neg (by rw [hs]; decide)]
    have hfold : deliverAll s (f :: t) = deliverAll (s.stream_frame_recvd f) t := rfl
    rw [hfold, hstep]
    exact ih { s with
        recv_frame_dict := dictInsert s.recv_frame_dict f.offset f.data
        curr_offset := s.curr_offset + f.data.length } hs
      (fun g hg => hl g (List.mem_cons_of_mem _ hg))

lemma foldl_dictInsert_fresh : ∀ (l : List FrameStream) (d : List (Nat × List Nat)),
    (∀ f ∈ l, ∀ p ∈ d, p.1 ≠ f.offset) →
    List.Pairwise (fun f g : FrameStream => f.offset ≠ g.offset) l →
    l.foldl (fun d f => dictInsert d f.offset f.data) d
      = d ++ l.map (fun f => (f.offset, f.data)) := by
  intro l
  induction l with
  | nil => intro d _ _; simp
  | cons f t ih =>
    intro d hfresh hpair
    have hnone : d.any (fun p => p.1 == f.offset) = false := by
      rw [List.any_eq_false]
      intro p hp
      simp only [beq_iff_eq]
      exact hfresh f (List.mem_cons_self _ _) p hp
    show List.foldl _ (dictInsert d f.offset f.data) t = _
    rw [dictInsert, if_neg (by rw [hnone]; exact Bool.false_ne_true)]
    rw [ih (d ++ [(f.offset, f.data)]) ?_ (List.Pairwise.sublist (List.sublist_cons_self f t) hpair)]
    · simp
    · intro g hg p hp
      rcases List.mem_append.mp hp with hpd | hps
      · exact hfresh g (List.mem_cons_of_mem _ hg) p hpd
      · have hpe : p = (f.offset, f.data) := by simpa using hps
        rw [hpe]
        exact (List.pairwise_cons.mp hpair).1 g hg

lemma insertByKey_perm (p : Nat × List Nat) :
    ∀ l, (insertByKey p l).Perm (p :: l) := by
  intro l
  induction l with
  | nil => exact List.Perm.refl _
  | cons q qs ih =>
    rw [insertByKey]
    split
    · exact List.Perm.refl _
    · exact (List.Perm.cons q ih).trans (List.Perm.swap p q qs)

lemma sortByKey_perm (l : List (Nat × List Nat)) : (sortByKey l).Perm l := by
  induction l with
  | nil => exact List.Perm.refl _
  | cons p t ih =>
    show (insertByKey p (sortByKey t)).Perm (p :: t)
    exact (insertByKey_perm p (sortByKey t)).trans (List.Perm.cons p ih)

lemma mem_insertByKey {x p : Nat × List Nat} {l : List (Nat × List Nat)} :
    x ∈ insertByKey p l → x = p ∨ x ∈ l := by
  intro hx
  have hm := (insertByKey_perm p l).mem_iff.mp hx
  simpa using hm

lemma insertByKey_sorted (p : Nat × List Nat) :
    ∀ l, List.Pairwise (fun a b : Nat × List Nat => a.1 ≤ b.1) l →
    List.Pairwise (fun a b : Nat × List Nat => a.1 ≤ b.1) (insertByKey p l) := by
  intro l
  induction l with
  | nil => intro _; exact List.pairwise_singleton _ _
  | cons q qs ih =>
    intro hs
    obtain ⟨hq, hqs⟩ := List.pairwise_cons.mp hs
    rw [insertByKey]
    split
    · rename_i hple
      apply List.pairwise_cons.mpr
      refine ⟨?_, hs⟩
      intro x hx
      rcases List.mem_cons.mp hx with rfl | hx
      · exact hple
      · exact le_trans hple (hq x hx)
    · rename_i hnle
      apply List.pairwise_cons.mpr
      refine ⟨?_, ih hqs⟩
      intro x hx
      rcases mem_insertByKey hx with rfl | hx
      · omega
      · exact hq x hx

lemma sortByKey_sorted (l : List (Nat × List Nat)) :
    List.Pairwise (fun a b : Nat × List Nat => a.1 ≤ b.1) (sortByKey l) := by
  induction l with
  | nil => exact List.Pairwise.nil
  | cons p t ih => exact insertByKey_sorted p (sortByKey t) ih

lemma sorted_key_unique (l1 l2 : List (Nat × List Nat)) (hp : l1.Perm l2)
    (h1 : List.Pairwise (fun a b : Nat × List Nat => a.1 < b.1) l1)
    (h2 : List.Pairwise (fun a b : Nat × List Nat => a.1 < b.1) l2) : l1 = l2 := by
  haveI : IsAntisymm (Nat × List Nat) (fun a b => a.1 < b.1) :=
    ⟨fun a b hab hba => absurd hba (by omega)⟩
  exact List.eq_of_perm_of_sorted hp h1 h2

lemma sortByKey_of_perm_strict (l canon : List (Nat × List Nat)) (hp : l.Perm canon)
    (hs : List.Pairwise (fun a b : Nat × List Nat => a.1 < b.1) canon) :
    sortByKey l = canon := by
  have hperm : (sortByKey l).Perm canon := (sortByKey_perm l).trans hp
  have hle := sortByKey_sorted l
  have hcne : List.Pairwise (fun a b : Nat × List Nat => a.1 ≠ b.1) canon :=
    hs.imp (fun h => Nat.ne_of_lt h)
  have hne : List.Pairwise (fun a b : Nat × List Nat => a.1 ≠ b.1) (sortByKey l) :=
    (List.Perm.pairwise_iff (fun h => h.symm) hperm).mpr hcne
  have hlt : List.Pairwise (fun a b : Nat × List Nat => a.1 < b.1) (sortByKey l) :=
    (hle.and hne).imp (fun h => lt_of_le_of_ne h.1 h.2)
  exact sorted_key_unique _ _ hperm hlt hs

lemma chunks_join (B : List Nat) (m : Nat) :
    ∀ k, ((List.range k).map (fun i => (B.drop (i * m)).take m)).flatten = B.take (k * m) := by
  intro k
  induction k with
  | zero => simp
  | succ k ih =>
    rw [List.range_succ, List.map_append, List.flatten_append, ih]
    simp only [List.map_cons, List.map_nil, List.flatten_cons, List.flatten_nil,
      List.append_nil]
    rw [← List.take_add]
    congr 1
    ring

lemma chunkFrames_nonfin (sid : Nat) (B : List Nat) (m : Nat) :
    ∀ f ∈ chunkFrames sid B m, f.fin = false := by
  intro f hf
  unfold chunkFrames at hf
  obtain ⟨i, _, rfl⟩ := List.mem_map.mp hf
  rfl

lemma chunkFrames_offsets (sid : Nat) (B : List Nat) (m : Nat) (hm : 0 < m) :
    List.Pairwise (fun f g : FrameStream => f.offset ≠ g.offset) (chunkFrames sid B m) := by
  unfold chunkFrames
  rw [List.pairwise_map]
  apply (List.pairwise_lt_range _).imp
  intro a b hab
  show a * m ≠ b * m
  have := (Nat.mul_lt_mul_right hm).mpr hab
  omega

lemma chunkFrames_offset_lt (sid : Nat) (B : List Nat) (m : Nat) (hm : 0 < m) :
    ∀ f ∈ chunkFrames sid B m, f.offset < chunkCount B m * m := by
  intro f hf
  unfold chunkFrames at hf
  obtain ⟨i, hi, rfl⟩ := List.mem_map.mp hf
  show i * m < chunkCount B m * m
  exact (Nat.mul_lt_mul_right hm).mpr (List.mem_range.mp hi)

/-- Delivering any permutation of the chunk frames followed by the FIN frame
leaves the receiver in DATA_RECVD with the original buffer reassembled. -/
lemma receiver_reassembles (sid : Nat) (B : List Nat) (m : Nat) (hm : 0 < m)
    (l : List FrameStream) (hperm : l.Perm (chunkFrames sid B m)) :
    (deliverAll (StreamReceiver.mk0 sid true) (l ++ [finFrame sid B m])).state
        = Constants.DATA_RECVD
    ∧ (deliverAll (StreamReceiver.mk0 sid true) (l ++ [finFrame sid B m])).buffer = B := by
  have hl_nonfin : ∀ f ∈ l, f.fin = false := fun f hf =>
    chunkFrames_nonfin sid B m f (hperm.mem_iff.mp hf)
  have hl_pair : List.Pairwise (fun f g : FrameStream => f.offset ≠ g.offset) l :=
    (List.Perm.pairwise_iff (fun h => h.symm) hperm).mpr (chunkFrames_offsets sid B m hm)
  obtain ⟨hst, hbuf, hdict, _, _⟩ := deliver_nonfin l (StreamReceiver.mk0 sid true) rfl hl_nonfin
  show (deliverAll (StreamReceiver.mk0 sid true) (l ++ [finFrame sid B m])).state = _ ∧ _
  unfold deliverAll
  rw [List.foldl_append]
  set s1 := List.foldl StreamReceiver.stream_frame_recvd (StreamReceiver.mk0 sid true) l with hs1
  have hdict1 : s1.recv_frame_dict = l.map (fun f => (f.offset, f.data)) := by
    rw [hs1]
    show (deliverAll (StreamReceiver.mk0 sid true) l).recv_frame_dict = _
    rw [hdict]
    exact foldl_dictInsert_fresh l [] (by simp) hl_pair
  have hst1 : s1.state = Constants.RECV := hst
  have hbuf1 : s1.buffer = [] := hbuf
  have hfinoff_fresh : ∀ p ∈ s1.recv_frame_dict, p.1 ≠ (finFrame sid B m).offset := by
    rw [hdict1]
    intro p hp
    obtain ⟨f, hf, rfl⟩ := List.mem_map.mp hp
    have hlt := chunkFrames_offset_lt sid B m hm f (hperm.mem_iff.mp hf)
    show f.offset ≠ chunkCount B m * m
    omega
  rw [List.foldl_cons, List.foldl_nil]
  unfold StreamReceiver.stream_frame_recvd
  rw [show (finFrame sid B m).fin = true from rfl]
  dsimp only
  unfold StreamReceiver._add_frame_to_recv_dict
  dsimp only
  rw [if_pos rfl]
  unfold StreamReceiver._convert_dict_to_buffer
  dsimp only
  have hins : dictInsert s1.recv_frame_dict (finFrame sid B m).offset (finFrame sid B m).data
      = l.map (fun f => (f.offset, f.data))
        ++ [((finFrame sid B m).offset, (finFrame sid B m).data)] := by
    rw [dictInsert, if_neg ?_, hdict1]
    rw [Bool.not_eq_true, List.any_eq_false]
    intro p hp
    simp only [beq_iff_eq]
    exact hfinoff_fresh p hp
  rw [hins]
  have hcanon : sortByKey (l.map (fun f => (f.offset, f.data))
        ++ [((finFrame sid B m).offset, (finFrame sid B m).data)])
      = (chunkFrames sid B m).map (fun f => (f.offset, f.data))
        ++ [((finFrame sid B m).offset, (finFrame sid B m).data)] := by
    apply sortByKey_of_perm_strict
    · exact List.Perm.append (hperm.map _) (List.Perm.refl _)
    · rw [List.pairwise_append]
      refine ⟨?_, List.pairwise_singleton _ _, ?_⟩
      · unfold chunkFrames
        rw [List.map_map, List.pairwise_map]
        apply (List.pairwise_lt_range _).imp
        intro a b hab
        show a * m < b * m
        exact (Nat.mul_lt_mul_right hm).mpr hab
      · intro p hp q hq
        obtain ⟨f, hf, rfl⟩ := List.mem_map.mp hp
        have hlt := chunkFrames_offset_lt sid B m hm f hf
        have hq2 : q = ((finFrame sid B m).offset, (finFrame sid B m).data) := by
          simpa using hq
        rw [hq2]
        show f.offset < chunkCount B m * m
        exact hlt
  rw [hcanon]
  refine ⟨rfl, ?_⟩
  show s1.buffer
      ++ ((((chunkFrames sid B m).map (fun f => (f.offset, f.data))
        ++ [((finFrame sid B m).offset, (finFrame sid B m).data)]).map Prod.snd)).flatten = B
  rw [hbuf1, List.nil_append, List.map_append, List.flatten_append, List.map_map]
  have hchunkdata : ((chunkFrames sid B m).map (Prod.snd ∘ fun f : FrameStream
      => (f.offset, f.data))).flatten = B.take (chunkCount B m * m) := by
    unfold chunkFrames
    rw [List.map_map]
    exact chunks_join B m (chunkCount B m)
  rw [hchunkdata]
  show B.take (chunkCount B m * m) ++ ((finFrame sid B m).data ++ List.flatten []) = B
  simp [finFrame]

/-! ### Stream-id generation and connection lemmas -/

lemma stream_id_generator_eq (c initiated_by direction : Nat) :
    QuicConnection._stream_id_generator c initiated_by direction
      = 4 * c + 2 * direction + initiated_by := by
  unfold QuicConnection._stream_id_generator
  rw [intFromBin_append_two, intFromBin_pyBin]
  ring

lemma or_low_bits (c d i : Nat) (hd : d ≤ 1) (hi : i ≤ 1) :
    (c <<< 2) ||| (d <<< 1) ||| i = 4 * c + 2 * d + i := by
  rw [Nat.shiftLeft_eq, Nat.shiftLeft_eq]
  have h1 : (2:Nat)^2 * c + d * 2 = 2^2 * c ||| d * 2 :=
    Nat.mul_add_lt_is_or (by omega) c
  have h2 : (2:Nat)^1 * (2 * c + d) + i = 2^1 * (2 * c + d) ||| i :=
    Nat.mul_add_lt_is_or (by omega) (2 * c + d)
  have e1 : c * 2 ^ 2 = 2 ^ 2 * c := by ring
  have e2 : d * 2 ^ 1 = d * 2 := by ring
  rw [e1, e2, ← h1]
  have e3 : (2:Nat)^2 * c + d * 2 = 2^1 * (2 * c + d) := by ring
  rw [e3, ← h2]
  ring

lemma and_two_val (c r : Nat) (hr : r < 4) :
    (4 * c + r) &&& 2 = if r / 2 = 1 then 2 else 0 := by
  rw [show (2:Nat) = 2^1 from rfl, Nat.and_two_pow, Nat.testBit_to_div_mod]
  have hdiv : (4 * c + r) / 2 % 2 = r / 2 := by omega
  rw [hdiv]
  by_cases h : r / 2 = 1 <;> simp [h]

lemma is_uni_gen (c d i : Nat) (hd : d ≤ 1) (hi : i ≤ 1) :
    Stream.is_uni_by_sid (4 * c + 2 * d + i) = decide (d = 1) := by
  unfold Stream.is_uni_by_sid
  rw [show (Constants.DIRECTION_MASK : Nat) = 2 from rfl,
    show 4 * c + 2 * d + i = 4 * c + (2 * d + i) by ring,
    and_two_val c (2 * d + i) (by omega),
    show (2 * d + i) / 2 = d by omega]
  interval_cases d <;> simp

lemma is_s_init_gen (c d i : Nat) (_hd : d ≤ 1) (hi : i ≤ 1) :
    Stream.is_s_init_by_sid (4 * c + 2 * d + i) = decide (i = 1) := by
  unfold Stream.is_s_init_by_sid
  rw [show (Constants.INIT_BY_MASK : Nat) = 1 from rfl, Nat.and_one_is_mod,
    show (4 * c + 2 * d + i) % 2 = i % 2 by omega,
    show i % 2 = i by omega]
  interval_cases i <;> simp

lemma get_stream_spec (st : ConnLite) (i d : Nat)
    (hinv : ∀ j ∈ st.stream_ids, j < 4 * st.streams_counter) :
    (st.get_stream i d).1 = 4 * st.streams_counter + 2 * d + i
    ∧ (st.get_stream i d).2.1 = true
    ∧ (st.get_stream i d).2.2.stream_ids = st.stream_ids ++ [(st.get_stream i d).1]
    ∧ (st.get_stream i d).2.2.streams_counter = st.streams_counter + 1 := by
  have hsid := stream_id_generator_eq st.streams_counter i d
  have hnotmem : QuicConnection._stream_id_generator st.streams_counter i d ∉ st.stream_ids := by
    rw [hsid]
    intro hmem
    have := hinv _ hmem
    omega
  unfold ConnLite.get_stream
  rw [if_neg hnotmem]
  exact ⟨hsid, rfl, rfl, rfl⟩

lemma apply_invariant : ∀ (calls : List (Nat × Nat)) (st : ConnLite),
    (∀ j ∈ st.stream_ids, j < 4 * st.streams_counter) →
    (∀ c ∈ calls, c.1 ≤ 1 ∧ c.2 ≤ 1) →
    ∀ j ∈ (st.applyGetStreams calls).stream_ids,
      j < 4 * (st.applyGetStreams calls).streams_counter := by
  intro calls
  induction calls with
  | nil => intro st hinv _; exact hinv
  | cons c cs ih =>
    intro st hinv hcalls
    show ∀ j ∈ (ConnLite.applyGetStreams _ cs).stream_ids, _
    apply ih
    · obtain ⟨hc1, hc2⟩ := hcalls c (List.mem_cons_self _ _)
      unfold ConnLite.get_stream
      dsimp only
      by_cases hm : QuicConnection._stream_id_generator st.streams_counter c.1 c.2
          ∈ st.stream_ids
      · rw [if_pos hm]
        exact hinv
      · rw [if_neg hm]
        intro j hj
        show j < 4 * (st.streams_counter + 1)
        rcases List.mem_append.mp hj with hjo | hjn
        · have := hinv j hjo
          omega
        · have hje : j = QuicConnection._stream_id_generator st.streams_counter c.1 c.2 := by
            simpa using hjn
          rw [hje, stream_id_generator_eq]
          omega
    · intro c' hc'
      exact hcalls c' (List.mem_cons_of_mem _ hc')

/-! ### Claim theorems -/

/-- Claim C1, counterexample: packing and unpacking a packet does not recover
the packet number once the payload is non-empty (`unpack` reads four bytes of
packet number regardless of the header's length field, absorbing payload
bytes), and the frame list itself is not recovered when a frame's length field
disagrees with its data, or when a non-final frame has an offset field but no
length field. -/
theorem claim_C1_counterexample :
    (Packet.unpack (Packet.pack
        ⟨38, 1, [⟨10, 0, 7, false, [70, 114, 97, 109, 101, 32, 49]⟩]⟩)).packet_number
      = 17432576
    ∧ (17432576 : Nat) ≠ 1
    ∧ (Packet.unpack (Packet.pack ⟨38, 1, [⟨5, 0, 0, false, [1, 2, 3]⟩]⟩)).payload
        ≠ [⟨5, 0, 0, false, [1, 2, 3]⟩]
    ∧ (Packet.unpack (Packet.pack
        ⟨38, 2, [⟨1, 2, 0, true, []⟩, ⟨1, 0, 0, false, []⟩]⟩)).payload
        ≠ [(⟨1, 2, 0, true, []⟩ : FrameStream), ⟨1, 0, 0, false, []⟩] := by
  exact ⟨by decide, by decide, by decide, by decide⟩

/-- Claim C1 (amended): for every packet whose destination connection id fits
eight bytes, whose packet number is below `2 ^ 24`, and whose frames are
well-formed with every non-final frame parse-safe, unpacking the bytes
produced by `Packet.pack` recovers the destination connection id and the frame
list with identical fields in order; the packet number is recovered as well
whenever the payload is empty. -/
theorem claim_C1_packet_round_trip (p : Packet)
    (hd : p.destination_connection_id < 2 ^ 64) (hpn : p.packet_number < 2 ^ 24)
    (hwf : ∀ f ∈ p.payload, f.wellFormed) (hmid : ∀ f ∈ p.payload.dropLast, f.parseSafe) :
    (Packet.unpack (Packet.pack p)).destination_connection_id = p.destination_connection_id
    ∧ (Packet.unpack (Packet.pack p)).payload = p.payload
    ∧ (p.payload = [] → (Packet.unpack (Packet.pack p)).packet_number = p.packet_number) :=
  unpack_pack p hd hpn hwf hmid

/-- Claim C1, witness: the spec's mixed-frame packet round-trips its
destination connection id and both frames. -/
theorem claim_C1_witness :
    ((38 : Nat) < 2 ^ 64 ∧ (5 : Nat) < 2 ^ 24
      ∧ (∀ f ∈ [(⟨10, 0, 7, false, [70, 114, 97, 109, 101, 32, 49]⟩ : FrameStream),
            ⟨20, 0, 7, true, [70, 114, 97, 109, 101, 32, 50]⟩], f.wellFormed)
      ∧ (∀ f ∈ [(⟨10, 0, 7, false, [70, 114, 97, 109, 101, 32, 49]⟩ : FrameStream),
            ⟨20, 0, 7, true, [70, 114, 97, 109, 101, 32, 50]⟩].dropLast, f.parseSafe))
    ∧ ((Packet.unpack (Packet.pack ⟨38, 5,
          [⟨10, 0, 7, false, [70, 114, 97, 109, 101, 32, 49]⟩,
           ⟨20, 0, 7, true, [70, 114, 97, 109, 101, 32, 50]⟩]⟩)).destination_connection_id = 38
      ∧ (Packet.unpack (Packet.pack ⟨38, 5,
          [⟨10, 0, 7, false, [70, 114, 97, 109, 101, 32, 49]⟩,
           ⟨20, 0, 7, true, [70, 114, 97, 109, 101, 32, 50]⟩]⟩)).payload
          = [⟨10, 0, 7, false, [70, 114, 97, 109, 101, 32, 49]⟩,
             ⟨20, 0, 7, true, [70, 114, 97, 109, 101, 32, 50]⟩]
      ∧ ([(⟨10, 0, 7, false, [70, 114, 97, 109, 101, 32, 49]⟩ : FrameStream),
          ⟨20, 0, 7, true, [70, 114, 97, 109, 101, 32, 50]⟩] = [] →
          (Packet.unpack (Packet.pack ⟨38, 5,
            [⟨10, 0, 7, false, [70, 114, 97, 109, 101, 32, 49]⟩,
             ⟨20, 0, 7, true, [70, 114, 97, 109, 101, 32, 50]⟩]⟩)).packet_number = 5)) :=
  ⟨⟨by norm_num, by norm_num, by decide, by decide⟩,
    claim_C1_packet_round_trip ⟨38, 5,
      [⟨10, 0, 7, false, [70, 114, 97, 109, 101, 32, 49]⟩,
       ⟨20, 0, 7, true, [70, 114, 97, 109, 101, 32, 50]⟩]⟩
      (by norm_num) (by norm_num) (by decide) (by decide)⟩

/-- Claim C2, counterexample: delivering a permutation of a full sender run in
which the FIN frame comes first makes `get_data_from_buffer` return an empty
buffer instead of the original two bytes (the buffer is materialized on FIN
arrival, before the data frames are inserted). -/
theorem claim_C2_counterexample :
    [(⟨0, 2, 0, true, []⟩ : FrameStream), ⟨0, 0, 1, false, [0]⟩, ⟨0, 1, 1, false, [1]⟩].Perm
        (senderRunFrames 0 [0, 1] 1)
    ∧ firstReadResult (deliverAll (StreamReceiver.mk0 0 true)
        [⟨0, 2, 0, true, []⟩, ⟨0, 0, 1, false, [0]⟩, ⟨0, 1, 1, false, [1]⟩])
      = Except.ok []
    ∧ ([] : List Nat) ≠ [0, 1] := by
  exact ⟨by decide, by rfl, by decide⟩

/-- Claim C2 (amended): for every sender buffer and every permutation of the
frames of one full sender run in which the FIN frame is delivered last,
feeding the frames to a fresh `StreamReceiver` via `stream_frame_recvd` makes
`get_data_from_buffer` return the original buffer exactly once, and a second
call raises the state error. -/
theorem claim_C2_receiver_round_trip (sid : Nat) (B : List Nat) (m : Nat) (hm : 0 < m)
    (l : List FrameStream) (lastF : FrameStream) (hfin : lastF.fin = true)
    (hperm : (l ++ [lastF]).Perm (senderRunFrames sid B m)) :
    firstReadResult (deliverAll (StreamReceiver.mk0 sid true) (l ++ [lastF]))
      = Except.ok B
    ∧ (afterFirstRead (deliverAll (StreamReceiver.mk0 sid true)
        (l ++ [lastF]))).get_data_from_buffer
      = Except.error "ERROR: cannot read. stream is closed." := by
  rw [senderRunFrames_eq sid B m hm] at hperm
  have hlf : lastF = finFrame sid B m := by
    have hmem : lastF ∈ chunkFrames sid B m ++ [finFrame sid B m] :=
      hperm.mem_iff.mp (List.mem_append.mpr (Or.inr (List.mem_singleton.mpr rfl)))
    rcases List.mem_append.mp hmem with hc | hf
    · have := chunkFrames_nonfin sid B m lastF hc
      rw [hfin] at this
      exact absurd this (by decide)
    · exact List.mem_singleton.mp hf
  subst hlf
  have hlperm : l.Perm (chunkFrames sid B m) :=
    (List.perm_append_right_iff _).mp hperm
  obtain ⟨hstate, hbuffer⟩ := receiver_reassembles sid B m hm l hlperm
  have hget : (deliverAll (StreamReceiver.mk0 sid true)
      (l ++ [finFrame sid B m])).get_data_from_buffer
      = Except.ok ((deliverAll (StreamReceiver.mk0 sid true)
          (l ++ [finFrame sid B m])).buffer,
        {deliverAll (StreamReceiver.mk0 sid true) (l ++ [finFrame sid B m]) with
          state := Constants.DATA_READ}) := by
    unfold StreamReceiver.get_data_from_buffer
    rw [if_pos hstate]
  constructor
  · unfold firstReadResult
    rw [hget, hbuffer]
    rfl
  · unfold afterFirstRead
    rw [hget]
    have hst : ({deliverAll (StreamReceiver.mk0 sid true) (l ++ [finFrame sid B m]) with
        state := Constants.DATA_READ} : StreamReceiver).state = Constants.DATA_READ := rfl
    show StreamReceiver.get_data_from_buffer
      {deliverAll (StreamReceiver.mk0 sid true) (l ++ [finFrame sid B m]) with
        state := Constants.DATA_READ}
      = Except.error "ERROR: cannot read. stream is closed."
    unfold StreamReceiver.get_data_from_buffer
    rw [if_neg (by rw [hst]; decide)]

/-- Claim C2, witness: two swapped data frames followed by the FIN frame
reassemble the two-byte buffer, and a second read raises. -/
theorem claim_C2_witness :
    ((0 : Nat) < 1
      ∧ (⟨0, 2, 0, true, []⟩ : FrameStream).fin = true
      ∧ ([(⟨0, 1, 1, false, [2]⟩ : FrameStream), ⟨0, 0, 1, false, [1]⟩]
          ++ [(⟨0, 2, 0, true, []⟩ : FrameStream)]).Perm (senderRunFrames 0 [1, 2] 1))
    ∧ (firstReadResult (deliverAll (StreamReceiver.mk0 0 true)
          ([(⟨0, 1, 1, false, [2]⟩ : FrameStream), ⟨0, 0, 1, false, [1]⟩]
            ++ [(⟨0, 2, 0, true, []⟩ : FrameStream)])) = Except.ok [1, 2]
      ∧ (afterFirstRead (deliverAll (StreamReceiver.mk0 0 true)
          ([(⟨0, 1, 1, false, [2]⟩ : FrameStream), ⟨0, 0, 1, false, [1]⟩]
            ++ [(⟨0, 2, 0, true, []⟩ : FrameStream)]))).get_data_from_buffer
        = Except.error "ERROR: cannot read. stream is closed.") :=
  ⟨⟨by decide, by decide, by decide⟩,
    claim_C2_receiver_round_trip 0 [1, 2] 1 (by decide)
      [⟨0, 1, 1, false, [2]⟩, ⟨0, 0, 1, false, [1]⟩] ⟨0, 2, 0, true, []⟩
      (by decide) (by decide)⟩

/-- Claim C3, counterexample: with a ten-byte buffer and `max_size = 10` the
code emits no non-FIN chunk at all — a single FIN frame carries all ten bytes
— while the claim calls for `floor(10/10) = 1` non-FIN frame of exactly ten
bytes followed by an empty FIN frame. -/
theorem claim_C3_counterexample :
    senderRunFrames 0 (List.replicate 10 65) 10
      = [⟨0, 0, 10, true, List.replicate 10 65⟩] := by
  decide

/-- Claim C3 (amended): a single `generate_stream_frames(max_size)` call on a
fresh sender appends `floor(len(B)/max_size)` non-FIN frames of exactly
`max_size` bytes at consecutive offsets followed by one FIN frame with the
remainder only when `len(B) ≥ 2 * max_size`; otherwise (`len(B) <
2 * max_size`) it appends a single FIN frame carrying the whole buffer.  The
25-byte, `max_size = 10` example stands as specified. -/
theorem claim_C3_frame_partition (sid : Nat) (B : List Nat) (m : Nat) (hm : 0 < m) :
    senderRunFrames sid B m = chunkFrames sid B m ++ [finFrame sid B m] :=
  senderRunFrames_eq sid B m hm

/-- Claim C3, witness: the spec's 25-byte example produces exactly the three
specified frames. -/
theorem claim_C3_witness :
    (0 : Nat) < 10
    ∧ senderRunFrames 0 (List.replicate 25 65) 10
        = chunkFrames 0 (List.replicate 25 65) 10 ++ [finFrame 0 (List.replicate 25 65) 10]
    ∧ chunkFrames 0 (List.replicate 25 65) 10 ++ [finFrame 0 (List.replicate 25 65) 10]
        = [⟨0, 0, 10, false, List.replicate 10 65⟩,
           ⟨0, 10, 10, false, List.replicate 10 65⟩,
           ⟨0, 20, 5, true, List.replicate 5 65⟩] :=
  ⟨by decide, claim_C3_frame_partition 0 (List.replicate 25 65) 10 (by decide), by decide⟩

/-- Claim C4, counterexample: malformed inputs do not surface a decode error
and a frame value is produced — a one-byte buffer whose type byte announces
offset, length and FIN decodes to a frame with zeroed fields, and a payload
with an invalid type byte yields a frame instead of an error. -/
theorem claim_C4_counterexample :
    FrameStream.decode [15] = ⟨0, 0, 0, true, []⟩
    ∧ Packet.get_frames_from_payload_bytes [0] = [⟨0, 0, 0, false, []⟩] := by
  exact ⟨by decide, by decide⟩

/-- Claim C4 (amended): the decoder never raises on malformed input.  For
every buffer too short to contain even the type byte and the full stream id
(length at most nine), `_decode` returns a frame whose stream id is read from
whatever bytes are present, whose offset and length are zero, whose FIN flag
mirrors the type byte, and whose data is empty — no decode error is surfaced
and no partial state is left behind. -/
theorem claim_C4_truncated_decode (bs : List Nat) (h : bs.length ≤ 9) :
    FrameStream.decode bs
      = ⟨fromBytesBE (bs.drop 1), 0, 0,
          decide (fromBytesBE (bs.take 1) &&& Constants.FIN_BIT ≠ 0), []⟩ := by
  have h9 : bs.drop 9 = [] := List.drop_eq_nil_of_le (by omega)
  have h17 : bs.drop 17 = [] := List.drop_eq_nil_of_le (by omega)
  have h25 : bs.drop 25 = [] := List.drop_eq_nil_of_le (by omega)
  have htk : List.take 8 bs.tail = bs.tail := List.take_of_length_le (by simp; omega)
  have e1 : fromBytesBE (List.take 8 bs.tail) = fromBytesBE bs.tail := by rw [htk]
  have e0 : fromBytesBE ([] : List Nat) = 0 := rfl
  have e9 : fromBytesBE (List.take 8 (bs.drop 9)) = 0 := by rw [h9]; rfl
  have e17 : fromBytesBE (List.take 8 (bs.drop 17)) = 0 := by rw [h17]; rfl
  have e25 : fromBytesBE (List.take 8 (bs.drop 25)) = 0 := by rw [h25]; rfl
  unfold FrameStream.decode
  simp only [Constants.FRAME_TYPE_FIELD_LENGTH, Constants.STREAM_ID_LENGTH,
    Constants.OFFSET_LENGTH, Constants.LEN_LENGTH, Constants.ONE, Constants.EIGHT,
    Nat.reduceAdd]
  split_ifs <;> simp_all [h9, h17, h25, e1, e0, e9, e17, e25]

/-- Claim C4, witness: the one-byte buffer `[12]` (type byte announcing offset
and length) decodes to the all-default frame without error. -/
theorem claim_C4_witness :
    ([12] : List Nat).length ≤ 9
    ∧ FrameStream.decode [12]
        = ⟨fromBytesBE (([12] : List Nat).drop 1), 0, 0,
            decide (fromBytesBE (([12] : List Nat).take 1) &&& Constants.FIN_BIT ≠ 0), []⟩ :=
  ⟨by decide, claim_C4_truncated_decode [12] (by decide)⟩

/-- Claim C5: for every STREAM frame value whose stream id, offset and length
lie below `2 ^ 63`, with arbitrary FIN flag and arbitrary data bytes, decoding
the bytes produced by `encode` yields a frame equal to the original in all
five fields. -/
theorem claim_C5_frame_round_trip (f : FrameStream) (h1 : f.stream_id < 2 ^ 63)
    (h2 : f.offset < 2 ^ 63) (h3 : f.length < 2 ^ 63) :
    FrameStream.decode f.encode = f :=
  decode_encode f (lt_trans h1 (by norm_num)) (lt_trans h2 (by norm_num))
    (lt_trans h3 (by norm_num))

/-- Claim C5, witness: a frame with all optional fields present round-trips. -/
theorem claim_C5_witness :
    ((38 : Nat) < 2 ^ 63 ∧ (100 : Nat) < 2 ^ 63 ∧ (3 : Nat) < 2 ^ 63)
    ∧ FrameStream.decode (FrameStream.encode ⟨38, 100, 3, true, [1, 2, 3]⟩)
        = ⟨38, 100, 3, true, [1, 2, 3]⟩ :=
  ⟨⟨by norm_num, by norm_num, by norm_num⟩,
    claim_C5_frame_round_trip ⟨38, 100, 3, true, [1, 2, 3]⟩ (by norm_num) (by norm_num)
      (by norm_num)⟩

/-- Claim C6, counterexample: the walk misparses a concatenation of two
well-formed frames when the first has an offset field but no length field
(`end_of_attrs = 17` makes `length_from_attrs` read the offset as the
length), so the first recovered frame steals two bytes of the second. -/
theorem claim_C6_counterexample :
    (∀ f ∈ [(⟨1, 2, 0, true, []⟩ : FrameStream), ⟨1, 0, 0, false, []⟩], f.wellFormed)
    ∧ Packet.get_frames_from_payload_bytes
        (([(⟨1, 2, 0, true, []⟩ : FrameStream), ⟨1, 0, 0, false, []⟩].map
          FrameStream.encode).flatten)
      = [⟨1, 2, 0, true, [8, 0]⟩, ⟨1, 0, 0, false, []⟩]
    ∧ [(⟨1, 2, 0, true, [8, 0]⟩ : FrameStream), ⟨1, 0, 0, false, []⟩]
        ≠ [⟨1, 2, 0, true, []⟩, ⟨1, 0, 0, false, []⟩] := by
  exact ⟨by decide, by decide, by decide⟩

/-- Claim C6 (amended): for every concatenation of well-formed encoded STREAM
frames in which every non-final frame either has offset zero or a non-zero
length field, the `end_of_attrs` / `length_from_attrs` walk advances exactly
to each frame boundary and every frame is recovered with its original
fields. -/
theorem claim_C6_payload_walk (fs : List FrameStream) (hwf : ∀ f ∈ fs, f.wellFormed)
    (hmid : ∀ f ∈ fs.dropLast, f.parseSafe) :
    Packet.get_frames_from_payload_bytes ((fs.map FrameStream.encode).flatten) = fs :=
  get_frames_flatten fs hwf hmid

/-- Claim C6, witness: a two-frame concatenation is walked and recovered. -/
theorem claim_C6_witness :
    ((∀ f ∈ [(⟨1, 0, 2, false, [5, 6]⟩ : FrameStream), ⟨2, 2, 1, true, [7]⟩], f.wellFormed)
      ∧ (∀ f ∈ [(⟨1, 0, 2, false, [5, 6]⟩ : FrameStream), ⟨2, 2, 1, true, [7]⟩].dropLast,
          f.parseSafe))
    ∧ Packet.get_frames_from_payload_bytes
        (([(⟨1, 0, 2, false, [5, 6]⟩ : FrameStream), ⟨2, 2, 1, true, [7]⟩].map
          FrameStream.encode).flatten)
      = [⟨1, 0, 2, false, [5, 6]⟩, ⟨2, 2, 1, true, [7]⟩] :=
  ⟨⟨by decide, by decide⟩,
    claim_C6_payload_walk [⟨1, 0, 2, false, [5, 6]⟩, ⟨2, 2, 1, true, [7]⟩]
      (by decide) (by decide)⟩

/-- Claim C7 (code bug): over a sender lifetime in which the connection calls
`generate_stream_frames` again for the next packet while the stream is still
active (two-byte buffer, `max_size = 1`, one frame handed out between the two
calls), the frames handed out by `send_next_frame` contain two FIN frames, not
one — each `generate_stream_frames` call appends a fresh FIN frame. -/
theorem claim_C7_two_fins :
    (lifetimeFramesC7.filter (fun f => f.fin)).length = 2
    ∧ lifetimeFramesC7.length = 6 := by
  exact ⟨by decide, by decide⟩

/-- Claim C8 (code bug): a frame for unknown stream id 2 (direction bit set,
initiator bit clear) makes `_get_stream_by_id` create a stream whose `is_uni`
attribute is `false` and whose `is_s_initiated` attribute is `true` — the
opposite of the id's attribute bits, because `_add_stream` passes
`initiated_by` into `Stream.__init__`'s `is_uni` parameter slot. -/
theorem claim_C8_swapped_attrs :
    Stream.is_uni_by_sid 2 = true ∧ Stream.is_s_init_by_sid 2 = false
    ∧ (QuicConnection._get_stream_by_id_new 2).is_uni = false
    ∧ (QuicConnection._get_stream_by_id_new 2).is_s_initiated = true := by
  exact ⟨by decide, by decide, by decide, by decide⟩

/-- Claim C9: every id generated with direction and initiator bits in `{0,1}`
equals `(counter <<< 2) ||| (direction <<< 1) ||| initiator`, so
`is_uni_by_sid` recovers the direction and `is_s_init_by_sid` the initiator,
and for a fixed direction/initiator pair generation is injective in the
counter. -/
theorem claim_C9_stream_id_laws (c d i : Nat) (hd : d ≤ 1) (hi : i ≤ 1) :
    QuicConnection._stream_id_generator c i d = (c <<< 2) ||| (d <<< 1) ||| i
    ∧ Stream.is_uni_by_sid (QuicConnection._stream_id_generator c i d) = decide (d = 1)
    ∧ Stream.is_s_init_by_sid (QuicConnection._stream_id_generator c i d) = decide (i = 1)
    ∧ (∀ c', QuicConnection._stream_id_generator c' i d
        = QuicConnection._stream_id_generator c i d → c' = c) := by
  have hgen := stream_id_generator_eq c i d
  refine ⟨?_, ?_, ?_, ?_⟩
  · rw [hgen, or_low_bits c d i hd hi]
  · rw [hgen]; exact is_uni_gen c d i hd hi
  · rw [hgen]; exact is_s_init_gen c d i hd hi
  · intro c' hc'
    rw [stream_id_generator_eq, stream_id_generator_eq] at hc'
    omega

/-- Claim C9, witness: counter 3, direction 1, initiator 0 gives id 14 with
the advertised bit laws and injectivity. -/
theorem claim_C9_witness :
    ((1 : Nat) ≤ 1 ∧ (0 : Nat) ≤ 1)
    ∧ (QuicConnection._stream_id_generator 3 0 1 = (3 <<< 2) ||| (1 <<< 1) ||| 0
      ∧ Stream.is_uni_by_sid (QuicConnection._stream_id_generator 3 0 1) = decide ((1:Nat) = 1)
      ∧ Stream.is_s_init_by_sid (QuicConnection._stream_id_generator 3 0 1) = decide ((0:Nat) = 1)
      ∧ (∀ c', QuicConnection._stream_id_generator c' 0 1
          = QuicConnection._stream_id_generator 3 0 1 → c' = 3)) :=
  ⟨⟨le_rfl, by decide⟩, claim_C9_stream_id_laws 3 1 0 le_rfl (by decide)⟩

/-- Claim C10: on a connection that has received no frames, after any sequence
of `get_stream` calls with direction/initiator arguments in `{0,1}`, the next
`get_stream` call creates and registers a new stream whose id is not in the
table and is strictly greater than every previously created id — in
particular `get_stream` never returns a previously created stream, even for
repeated identical arguments. -/
theorem claim_C10_get_stream_fresh (calls : List (Nat × Nat))
    (hcalls : ∀ c ∈ calls, c.1 ≤ 1 ∧ c.2 ≤ 1) (i d : Nat) (hi : i ≤ 1) (hd : d ≤ 1) :
    ((ConnLite.fresh.applyGetStreams calls).get_stream i d).2.1 = true
    ∧ ((ConnLite.fresh.applyGetStreams calls).get_stream i d).1
        ∉ (ConnLite.fresh.applyGetStreams calls).stream_ids
    ∧ (∀ j ∈ (ConnLite.fresh.applyGetStreams calls).stream_ids,
        j < ((ConnLite.fresh.applyGetStreams calls).get_stream i d).1)
    ∧ ((ConnLite.fresh.applyGetStreams calls).get_stream i d).2.2.stream_ids
        = (ConnLite.fresh.applyGetStreams calls).stream_ids
          ++ [((ConnLite.fresh.applyGetStreams calls).get_stream i d).1] := by
  have hinv := apply_invariant calls ConnLite.fresh (by intro j hj; simp [ConnLite.fresh] at hj)
    hcalls
  obtain ⟨h1, h2, h3, _⟩ := get_stream_spec (ConnLite.fresh.applyGetStreams calls) i d hinv
  refine ⟨h2, ?_, ?_, h3⟩
  · intro hmem
    have := hinv _ hmem
    rw [h1] at this
    omega
  · intro j hj
    have := hinv j hj
    rw [h1]
    omega

/-- Claim C10, witness: after two identical `get_stream(0,0)` calls, a third
call creates a fresh, strictly larger id and registers it. -/
theorem claim_C10_witness :
    ((∀ c ∈ [((0 : Nat), (0 : Nat)), (0, 0)], c.1 ≤ 1 ∧ c.2 ≤ 1)
      ∧ (0 : Nat) ≤ 1 ∧ (0 : Nat) ≤ 1)
    ∧ (((ConnLite.fresh.applyGetStreams [(0, 0), (0, 0)]).get_stream 0 0).2.1 = true
      ∧ ((ConnLite.fresh.applyGetStreams [(0, 0), (0, 0)]).get_stream 0 0).1
          ∉ (ConnLite.fresh.applyGetStreams [(0, 0), (0, 0)]).stream_ids
      ∧ (∀ j ∈ (ConnLite.fresh.applyGetStreams [(0, 0), (0, 0)]).stream_ids,
          j < ((ConnLite.fresh.applyGetStreams [(0, 0), (0, 0)]).get_stream 0 0).1)
      ∧ ((ConnLite.fresh.applyGetStreams [(0, 0), (0, 0)]).get_stream 0 0).2.2.stream_ids
          = (ConnLite.fresh.applyGetStreams [(0, 0), (0, 0)]).stream_ids
            ++ [((ConnLite.fresh.applyGetStreams [(0, 0), (0, 0)]).get_stream 0 0).1]) :=
  ⟨⟨by decide, by decide, by decide⟩,
    claim_C10_get_stream_fresh [(0, 0), (0, 0)] (by decide) 0 0 (by decide) (by decide)⟩

end Auquic
